import Mathlib

/-!
Shallow embedding of the WGUPS routing system (src/wgups) in Lean 4.

Modelling conventions:
 * Wall-clock instants (Python datetime values, all on the same day) are rational
   numbers of hours since midnight; timedeltas are rational hour differences.
   Python float distances are modelled as rationals.
 * Packages and trucks are immutable records; Python in-place mutation becomes
   explicit state passing.
 * The package HashTable (src/wgups/data_structures.py) is an association list;
   iteration over the table visits ids in ascending order for ids below the
   table size (40), which is exactly the bucket order of the source, so the
   association lists below are kept in ascending id order.
 * Python set iteration over small ints visits them in ascending numeric order
   (CPython small-int hashing); sets of package ids are therefore modelled as
   ascending duplicate-free lists.
 * print / logging side effects of the source are dropped; they do not affect
   any state the claims mention.
-/

namespace WGUPS

/-- Addresses are plain strings, as in the source. -/
abbrev Addr := String

/-- Constants from src/wgups/constants.py, as hours since midnight. -/
def START_TIME : ℚ := 8

def EARLY_DEADLINE_CUTOFF : ℚ := 9 + 15/60

def STRICT_DEADLINE_CUTOFF : ℚ := 10

/-- Package status strings from constants.py as an inductive type. -/
inductive Status where
  | atHub
  | enRoute
  | delivered
deriving DecidableEq, Repr

/-- Directional word replacement table (DIRECTION_MAP in constants.py). -/
def DIRECTION_MAP (w : String) : String :=
  if w = "north" then "n"
  else if w = "south" then "s"
  else if w = "east" then "e"
  else if w = "west" then "w"
  else w

/-- Python str.strip on a character list: drop whitespace at both ends. -/
def stripChars (l : List Char) : List Char :=
  ((l.dropWhile Char.isWhitespace).reverse.dropWhile Char.isWhitespace).reverse

/-- Python str.split() with no argument on a character list: split on
whitespace runs, dropping empty pieces. -/
def splitWs : List Char → List Char → List String
  | [], acc => if acc.isEmpty then [] else [String.mk acc.reverse]
  | c :: cs, acc =>
      if c.isWhitespace then
        if acc.isEmpty then splitWs cs []
        else String.mk acc.reverse :: splitWs cs []
      else splitWs cs (c :: acc)

/-- Space-joining of words (Python str.join). -/
def joinSpace : List String → String
  | [] => ""
  | [w] => w
  | w :: ws => w ++ " " ++ joinSpace ws

/-- normalize_address from src/wgups/utils.py, character by character: the
two replace calls have single-character patterns (newline to space, drop
periods), then lower-case, strip, keep everything before the first opening
parenthesis (split on the parenthesis and take the head), strip, split into
whitespace-separated words, map the directional words, and re-join. -/
def normalize_address (address : Addr) : Addr :=
  if address = "" then "hub"
  else
    let cs := address.data.map (fun c => if c = '\n' then ' ' else c)
    let cs := cs.filter (fun c => c ≠ '.')
    let cs := cs.map Char.toLower
    let cs := stripChars cs
    let cs := cs.takeWhile (fun c => c ≠ '(')
    let cs := stripChars cs
    let normalized := joinSpace ((splitWs cs []).map DIRECTION_MAP)
    if normalized = "hub" ∨ normalized = "wgu" ∨ normalized = "wgups" then
      "hub"
    else normalized

/-- get_distance from src/wgups/utils.py: normalize both addresses, fall back
to the hub for addresses missing from the map (the source prints a warning),
then look the pair up in the matrix.  A missing hub key or an out-of-range
matrix index raises in Python; the getD defaults below are never reached in
the developments of this file, whose maps always contain the hub. -/
def get_distance (from_addr to_addr : Addr) (dm : List (List ℚ))
    (am : List (Addr × Nat)) : ℚ :=
  let fn := normalize_address from_addr
  let tn := normalize_address to_addr
  let fn := if (am.lookup fn).isSome then fn else "hub"
  let tn := if (am.lookup tn).isSome then tn else "hub"
  let i1 := (am.lookup fn).getD 0
  let i2 := (am.lookup tn).getD 0
  ((dm.getD i1 []).getD i2 0)

/-- Package record: the static and derived constraint fields of
src/wgups/models.py (= entities.py) Package, plus its mutable delivery state.
The free-text note parsing that fills the derived fields is the
address-normalization collaborator declared out of scope by the spec; the
fields below hold its already-parsed output.  city/state/zip/weight/raw-note
fields are carried by no function the claims touch and are omitted.
defer_count models the attribute created on the fly by execute_route
(getattr(pkg, 'defer_count', 0)). -/
structure Package where
  package_id : Nat
  address : Addr
  deadline_time : Option ℚ
  available_time : ℚ
  only_truck : Option Nat
  group_with : List Nat
  corrected_address : Option Addr
  correction_time : Option ℚ
  original_address : Addr
  status : Status
  truck_assigned : Option Nat
  departure_time : Option ℚ
  delivery_time : Option ℚ
  defer_count : Nat
deriving DecidableEq, Repr

instance : Inhabited Package where
  default :=
    { package_id := 0, address := "hub", deadline_time := none
      available_time := START_TIME, only_truck := none, group_with := []
      corrected_address := none, correction_time := none
      original_address := "hub", status := .atHub, truck_assigned := none
      departure_time := none, delivery_time := none, defer_count := 0 }

/-- Package.deliver. -/
def Package.deliver (p : Package) (t : ℚ) : Package :=
  { p with status := .delivered, delivery_time := some t }

/-- Package.pickup. -/
def Package.pickup (p : Package) (t : ℚ) (truck_id : Nat) : Package :=
  { p with status := .enRoute, truck_assigned := some truck_id
           departure_time := some t }

/-- Package.get_address (models.py lines 80-84): the original address is
returned only when a correction instant exists, an explicit time was passed
(the Python default is None) and that time lies strictly before the
correction instant; otherwise the corrected address, when present, wins.
Python truthiness: datetimes are always truthy, and the corrected address is
either None or the non-empty corrected street string. -/
def Package.get_address (p : Package) (t : Option ℚ) : Addr :=
  match p.correction_time, t with
  | some ct, some tt =>
      if tt < ct then normalize_address p.original_address
      else normalize_address (match p.corrected_address with
        | some ca => ca
        | none => p.address)
  | _, _ =>
      normalize_address (match p.corrected_address with
        | some ca => ca
        | none => p.address)

/-- The package table, iterated in ascending id order (see header note). -/
abbrev Packages := List (Nat × Package)

/-- HashTable.lookup. -/
def Packages.lookup (ps : Packages) (pid : Nat) : Option Package :=
  List.lookup pid ps

/-- Total lookup: Python raises AttributeError on a missing id wherever the
source dereferences a lookup without a None check; the default is never
reached for the id sets used in this file. -/
def lookupD (ps : Packages) (pid : Nat) : Package :=
  (ps.lookup pid).getD default

/-- Replace the stored package for one id (models Python object mutation). -/
def Packages.update (ps : Packages) (pid : Nat) (p : Package) : Packages :=
  ps.map (fun kv => if kv.1 = pid then (kv.1, p) else kv)

/-- Truck record from src/wgups/models.py (= entities.py); the activity log
is dropped (strings only). -/
structure Truck where
  truck_id : Nat
  time : ℚ
  speed : ℚ
  capacity : Nat
  cargo : List Nat
  mileage : ℚ
  location : Addr
  route : List Nat
  status : Status
  return_time : Option ℚ
deriving DecidableEq, Repr

/-- Truck.__init__ with the source defaults: speed 18 mph, capacity 16. -/
def Truck.init (truck_id : Nat) (time : ℚ) : Truck :=
  { truck_id, time, speed := 18, capacity := 16, cargo := [], mileage := 0
    location := "hub", route := [], status := .atHub, return_time := none }

/-- Truck.load_package: full truck fails and changes nothing; otherwise the
id is appended to cargo and the package picked up. -/
def Truck.load_package (t : Truck) (p : Package) : Bool × Truck × Package :=
  if t.capacity ≤ t.cargo.length then (false, t, p)
  else (true, { t with cargo := t.cargo ++ [p.package_id] },
        p.pickup t.time t.truck_id)

/-- Truck.set_route. -/
def Truck.set_route (t : Truck) (route : List Nat) : Truck :=
  { t with route := route, status := .enRoute }

/-- Truck.drive. -/
def Truck.drive (t : Truck) (distance : ℚ) : Truck :=
  { t with mileage := t.mileage + distance
           time := t.time + distance / t.speed }

/-- Truck.deliver: drive the distance, mark the package delivered at the new
clock value, drop the id from cargo (list.remove is a no-op when absent). -/
def Truck.deliverPkg (t : Truck) (p : Package) (distance : ℚ) :
    Truck × Package :=
  let t' := { t with mileage := t.mileage + distance
                     time := t.time + distance / t.speed }
  let p' := p.deliver t'.time
  ({ t' with cargo := t'.cargo.erase p.package_id }, p')

/-- Truck.return_to_hub. -/
def Truck.return_to_hub (t : Truck) : Truck :=
  { t with location := "hub", status := .atHub, return_time := some t.time }

/-- Truck.has_capacity. -/
def Truck.has_capacity (t : Truck) : Bool :=
  t.cargo.length < t.capacity

/-- Insert into an ascending duplicate-free list (models adding to a CPython
set of small ints, which iterates in ascending order). -/
def sortedInsert (v : Nat) : List Nat → List Nat
  | [] => [v]
  | x :: xs =>
      if v = x then x :: xs
      else if v < x then v :: x :: xs
      else x :: sortedInsert v xs

/-- dict.setdefault(k, set()): add the key with an empty set if absent. -/
def drInsert (dr : List (Nat × List Nat)) (k : Nat) : List (Nat × List Nat) :=
  if (dr.lookup k).isSome then dr else dr ++ [(k, [])]

/-- direct_relationships[k].add(v). -/
def drAddVal (dr : List (Nat × List Nat)) (k v : Nat) : List (Nat × List Nat) :=
  dr.map (fun kv => if kv.1 = k then (kv.1, sortedInsert v kv.2) else kv)

/-- First phase of resolve_package_groups (utils.py lines 63-78): build the
bidirectional direct-relationship graph, keyed in first-touch order. -/
def buildDR (ps : Packages) : List (Nat × List Nat) :=
  ps.foldl
    (fun dr kv =>
      match ps.lookup kv.1 with
      | none => dr
      | some pkg =>
          if pkg.group_with.isEmpty then dr
          else
            let dr := drInsert dr kv.1
            pkg.group_with.foldl
              (fun dr rel =>
                let dr := drInsert dr rel
                let dr := drAddVal dr kv.1 rel
                drAddVal dr rel kv.1)
              dr)
    []

/-- The BFS of resolve_package_groups (utils.py lines 92-103).  Each loop
iteration pops one queue element, so any fuel bounding the total number of
pops makes the recursion equal to the Python while loop. -/
def bfs (dr : List (Nat × List Nat)) :
    Nat → List Nat → List Nat → List Nat → (List Nat × List Nat)
  | 0, _, visited, group => (visited, group)
  | fuel + 1, queue, visited, group =>
      match queue with
      | [] => (visited, group)
      | current :: rest =>
          if current ∈ visited then bfs dr fuel rest visited group
          else
            let visited := current :: visited
            let group := sortedInsert current group
            let nbrs := ((dr.lookup current).getD []).filter
              (fun p => !(visited.contains p))
            bfs dr fuel (rest ++ nbrs) visited group

/-- Final step of resolve_package_groups (utils.py lines 105-107): the
source appends group_set to the result OUTSIDE the component loop, so only
the component discovered last survives; with no relationships at all the
source raises UnboundLocalError on the unbound group_set, a path modelled
here as the empty result. -/
def lastGroupToList : Option (List Nat) → List (List Nat)
  | some g => [g]
  | none => []

/-- resolve_package_groups from src/wgups/utils.py: build the relation
graph, walk its keys running one BFS per unvisited key, and return what the
misindented append keeps (lastGroupToList).  Every push into a BFS queue is
matched by a pop and each BFS pops at most one queue entry per unit of
fuel; the fuel below exceeds the total number of possible pushes, so the
recursion equals the unbounded Python loop. -/
def resolve_package_groups (ps : Packages) : List (List Nat) :=
  let dr := buildDR ps
  let fuel := 1 + dr.length + (dr.map (fun kv => kv.2.length)).sum
  let final := dr.foldl
    (fun (st : List Nat × Option (List Nat)) kv =>
      if kv.1 ∈ st.1 then st
      else
        let r := bfs dr fuel [kv.1] st.1 []
        (r.1, some r.2))
    ([], none)
  lastGroupToList final.2

/-- The normal-delivery step of execute_route (routing.py lines 60-64):
drive to the package's effective address, deliver, and move the running
location to that address at the advanced clock. -/
def execDeliver (dm : List (List ℚ)) (am : List (Addr × Nat))
    (truck : Truck) (ps : Packages) (loc : Addr) (pid : Nat) (pkg : Package) :
    Truck × Packages × Addr :=
  let distance := get_distance loc (pkg.get_address (some truck.time)) dm am
  let r := truck.deliverPkg pkg distance
  (r.1, ps.update pid r.2, r.2.get_address (some r.1.time))

/-- The while loop of execute_route (routing.py lines 27-64), with the
source's own max_iterations bound as fuel; state is (truck, packages,
running location, index i). -/
def execute_route_go (dm : List (List ℚ)) (am : List (Addr × Nat)) :
    Nat → Truck → Packages → Addr → Nat → (Truck × Packages × Addr)
  | 0, truck, ps, loc, _ => (truck, ps, loc)
  | fuel + 1, truck, ps, loc, i =>
      if i < truck.route.length then
        let pid := truck.route.getD i 0
        match ps.lookup pid with
        | none => execute_route_go dm am fuel truck ps loc (i + 1)
        | some pkg =>
            match pkg.correction_time with
            | some ct =>
                if truck.time < ct then
                  if ct - truck.time < 1/2 then
                    -- wait: correction is imminent, advance the clock only
                    execute_route_go dm am fuel { truck with time := ct } ps
                      loc i
                  else
                    let pkg' := { pkg with defer_count := pkg.defer_count + 1 }
                    let ps' := ps.update pid pkg'
                    if 10 < pkg'.defer_count then
                      -- source logs Force delivering here but only skips
                      execute_route_go dm am fuel truck ps' loc (i + 1)
                    else
                      let truck' :=
                        { truck with route := truck.route.eraseIdx i ++ [pid] }
                      execute_route_go dm am fuel truck' ps' loc i
                else
                  let r := execDeliver dm am truck ps loc pid pkg
                  execute_route_go dm am fuel r.1 r.2.1 r.2.2 (i + 1)
            | none =>
                let r := execDeliver dm am truck ps loc pid pkg
                execute_route_go dm am fuel r.1 r.2.1 r.2.2 (i + 1)
      else (truck, ps, loc)

/-- execute_route from src/wgups/routing.py (max_iterations = 1000): run the
delivery loop, then drive the final hub-return leg and return to the hub. -/
def execute_route (truck : Truck) (ps : Packages) (dm : List (List ℚ))
    (am : List (Addr × Nat)) : Truck × Packages :=
  let r := execute_route_go dm am 1000 truck ps "hub" 0
  let return_distance := get_distance r.2.2 "hub" dm am
  ((r.1.drive return_distance).return_to_hub, r.2.1)

/-- handle_address_corrections from src/wgups/optimizer_helpers.py
(= NN2OptOptimizer._handle_address_corrections): split cargo into packages
deliverable now and packages whose correction is still pending. -/
def handle_address_corrections (truck : Truck) (ps : Packages) :
    List Nat × List Nat :=
  truck.cargo.foldl
    (fun st pid =>
      match ps.lookup pid with
      | some pkg =>
          match pkg.correction_time with
          | some ct =>
              if truck.time < ct then (st.1, st.2 ++ [pid])
              else (st.1 ++ [pid], st.2)
          | none => (st.1 ++ [pid], st.2)
      | none => (st.1 ++ [pid], st.2))
    ([], [])

/-- categorize_packages: deadline (at or before 10:30) vs other ids. -/
def categorize_packages (pids : List Nat) (ps : Packages) :
    List Nat × List Nat :=
  pids.foldl
    (fun st pid =>
      match ps.lookup pid with
      | some pkg =>
          match pkg.deadline_time with
          | some dl =>
              if dl ≤ 10 + 30/60 then (st.1 ++ [pid], st.2)
              else (st.1, st.2 ++ [pid])
          | none => (st.1, st.2 ++ [pid])
      | none => (st.1, st.2 ++ [pid]))
    ([], [])

/-- All (element, remainder) pairs of a list in ascending position order:
picks [a,b,c] = [(a,[b,c]), (b,[a,c]), (c,[a,b])].  This is the recursion
scheme of itertools.permutations. -/
def picks : List Nat → List (Nat × List Nat)
  | [] => []
  | x :: xs => (x, xs) :: (picks xs).map (fun p => (p.1, x :: p.2))

/-- All permutations of a list in the lexicographic-by-position order of
itertools.permutations; the fuel is always instantiated with the length. -/
def permsLexAux : Nat → List Nat → List (List Nat)
  | 0, _ => [[]]
  | n + 1, l =>
      (picks l).flatMap (fun p => (permsLexAux n p.2).map (p.1 :: ·))

/-- itertools.permutations(l) as a list of lists. -/
def permsLex (l : List Nat) : List (List Nat) :=
  permsLexAux l.length l

/-- The per-permutation simulation of optimize_with_permutations
(optimizer_helpers.py lines 57-73): walk the permutation accumulating
directed distance and advancing the time cursor at the truck speed; break
with none at the first missed deadline, otherwise return the total
distance. -/
def permSim (ps : Packages) (dm : List (List ℚ)) (am : List (Addr × Nat))
    (speed : ℚ) : List Nat → ℚ → Addr → ℚ → Option ℚ
  | [], _, _, total => some total
  | pid :: rest, cursor, loc, total =>
      let pkg := lookupD ps pid
      let dist := get_distance loc (pkg.get_address (some cursor)) dm am
      let total := total + dist
      let cursor := cursor + dist / speed
      match pkg.deadline_time with
      | some dl =>
          if dl < cursor then none
          else permSim ps dm am speed rest cursor
                 (pkg.get_address (some cursor)) total
      | none =>
          permSim ps dm am speed rest cursor
            (pkg.get_address (some cursor)) total

/-- The best/best_score fold of optimize_with_permutations: keep the first
permutation strictly improving on the current best total distance
(best_score starts at float inf, modelled by the none accumulator). -/
def bestPerm (ps : Packages) (dm : List (List ℚ)) (am : List (Addr × Nat))
    (speed time0 : ℚ) :
    List (List Nat) → Option (List Nat × ℚ) → Option (List Nat × ℚ)
  | [], acc => acc
  | p :: rest, acc =>
      match permSim ps dm am speed p time0 "hub" 0 with
      | none => bestPerm ps dm am speed time0 rest acc
      | some d =>
          match acc with
          | none => bestPerm ps dm am speed time0 rest (some (p, d))
          | some pr =>
              if d < pr.2 then bestPerm ps dm am speed time0 rest (some (p, d))
              else bestPerm ps dm am speed time0 rest acc

/-- One selection step of the unweighted nearest-neighbour fill loop: the
first strict minimiser of distance from loc, in iteration order. -/
def selectNext (ps : Packages) (dm : List (List ℚ)) (am : List (Addr × Nat))
    (ttime : ℚ) (loc : Addr) (remaining : List Nat) : Option Nat :=
  (remaining.foldl
    (fun (st : Option (Nat × ℚ)) pid =>
      let pkg := lookupD ps pid
      let dist := get_distance loc (pkg.get_address (some ttime)) dm am
      match st with
      | none => some (pid, dist)
      | some pr => if dist < pr.2 then some (pid, dist) else st)
    none).map (·.1)

/-- The while loop filling the route with non-deadline packages by nearest
neighbour (optimizer_helpers.py lines 86-97).  Each iteration removes the
selected id from remaining, so fuel = length of remaining makes the
recursion equal to the Python loop. -/
def nnFill (ps : Packages) (dm : List (List ℚ)) (am : List (Addr × Nat))
    (ttime : ℚ) : Nat → List Nat → Addr → List Nat
  | 0, _, _ => []
  | _ + 1, [], _ => []
  | fuel + 1, remaining, loc =>
      match selectNext ps dm am ttime loc remaining with
      | none => []
      | some nxt =>
          nxt :: nnFill ps dm am ttime fuel (remaining.erase nxt)
            ((lookupD ps nxt).get_address (some ttime))

/-- optimize_with_permutations from src/wgups/optimizer_helpers.py lines
47-99 (= NN2OptOptimizer._optimize_with_permutations): brute-force the
deadline subset, reject permutations that miss a deadline, keep the
cheapest feasible one and extend it with the other packages by nearest
neighbour.  The source's `if not best: return None` treats the empty best
list as falsy, exactly as modelled; the deferred argument is unused in the
source as well.  set(others) for the small unique ids used here iterates in
list order, modelled by dedup. -/
def optimize_with_permutations (deadlines others deferred : List Nat)
    (ps : Packages) (dm : List (List ℚ)) (am : List (Addr × Nat))
    (truck : Truck) : Option (List Nat) :=
  match bestPerm ps dm am truck.speed truck.time (permsLex deadlines) none with
  | none => none
  | some pr =>
      let best := pr.1
      if best.isEmpty then none
      else
        let remaining := others.dedup
        let loc :=
          if best.isEmpty then "hub"
          else (lookupD ps (best.getLastD 0)).get_address (some truck.time)
        some (best ++ nnFill ps dm am truck.time remaining.length remaining loc)

/-- Stable insertion placing x after existing entries with key ≤ key x; the
fold below is a stable sort, matching Python's stable list.sort. -/
def insertByKey (x : Nat × ℚ) : List (Nat × ℚ) → List (Nat × ℚ)
  | [] => [x]
  | y :: ys => if y.2 ≤ x.2 then y :: insertByKey x ys else x :: y :: ys

/-- Stable sort by the rational key (Python list.sort with key). -/
def sortByKey (l : List (Nat × ℚ)) : List (Nat × ℚ) :=
  l.foldl (fun acc x => insertByKey x acc) []

/-- One selection step of the weighted greedy loop of nearest_neighbor
(weight 0.9 for deadline-bearing packages, else 1.0; the stored minimum is
the weighted distance). -/
def selectNextWeighted (ps : Packages) (dm : List (List ℚ))
    (am : List (Addr × Nat)) (ttime : ℚ) (loc : Addr)
    (remaining : List Nat) : Option Nat :=
  (remaining.foldl
    (fun (st : Option (Nat × ℚ)) pid =>
      let pkg := lookupD ps pid
      let dist := get_distance loc (pkg.get_address (some ttime)) dm am
      let weight : ℚ := if pkg.deadline_time.isSome then 9/10 else 1
      match st with
      | none => some (pid, dist * weight)
      | some pr =>
          if dist * weight < pr.2 then some (pid, dist * weight) else st)
    none).map (·.1)

/-- The weighted greedy while loop of nearest_neighbor (optimizer_helpers.py
lines 127-139); fuel = length of remaining as for nnFill. -/
def nnGreedy (ps : Packages) (dm : List (List ℚ)) (am : List (Addr × Nat))
    (ttime : ℚ) : Nat → List Nat → Addr → List Nat
  | 0, _, _ => []
  | _ + 1, [], _ => []
  | fuel + 1, remaining, loc =>
      match selectNextWeighted ps dm am ttime loc remaining with
      | none => []
      | some nxt =>
          nxt :: nnGreedy ps dm am ttime fuel (remaining.erase nxt)
            ((lookupD ps nxt).get_address (some ttime))

/-- nearest_neighbor from src/wgups/optimizer_helpers.py lines 101-141:
early-deadline (at or before 10:00) packages first, ascending by deadline
(stable), then the weighted greedy loop.  ttime is packages.truck.time, the
ambient truck stashed on the package table by the caller.  set(pids) for
the unique ascending cargo ids used in this file iterates in list order. -/
def nearest_neighbor (pids : List Nat) (ps : Packages) (dm : List (List ℚ))
    (am : List (Addr × Nat)) (ttime : ℚ) : List Nat :=
  let remaining0 := pids.dedup
  let early := sortByKey (remaining0.filterMap
    (fun pid =>
      match ps.lookup pid with
      | some pkg =>
          match pkg.deadline_time with
          | some dl => if dl ≤ 10 then some (pid, dl) else none
          | none => none
      | none => none))
  let st := early.foldl
    (fun (st : List Nat × List Nat × Addr) pr =>
      if pr.1 ∈ st.2.1 then
        (st.1 ++ [pr.1], st.2.1.erase pr.1,
         (lookupD ps pr.1).get_address (some ttime))
      else st)
    ([], remaining0, "hub")
  st.1 ++ nnGreedy ps dm am ttime st.2.1.length st.2.1 st.2.2

/-- calculate_route_distance from src/wgups/optimizer_helpers.py lines
188-202 (= NN2OptOptimizer._calculate_route_distance), as a recursion on
the route with the running location as argument; ttime is the ambient
packages.truck.time. -/
def crdGo (ps : Packages) (dm : List (List ℚ)) (am : List (Addr × Nat))
    (ttime : ℚ) : List Nat → Addr → ℚ
  | [], loc => get_distance loc "hub" dm am
  | pid :: rest, loc =>
      let a := (lookupD ps pid).get_address (some ttime)
      get_distance loc a dm am + crdGo ps dm am ttime rest a

/-- Total route distance including the final hub-return leg. -/
def calculate_route_distance (route : List Nat) (ps : Packages)
    (dm : List (List ℚ)) (am : List (Addr × Nat)) (ttime : ℚ) : ℚ :=
  crdGo ps dm am ttime route "hub"

/-- calculate_delivery_times from src/wgups/optimizer_helpers.py lines
204-221: projected delivery instant of each package on the route, walking
from the hub at the ambient truck's clock and speed. -/
def calculate_delivery_times (route : List Nat) (ps : Packages)
    (dm : List (List ℚ)) (am : List (Addr × Nat)) (ttime tspeed : ℚ) :
    List (Nat × ℚ) :=
  (route.foldl
    (fun (st : List (Nat × ℚ) × Addr × ℚ) pid =>
      let pkg := lookupD ps pid
      let dist := get_distance st.2.1 (pkg.get_address (some st.2.2)) dm am
      let ct := st.2.2 + dist / tspeed
      (st.1 ++ [(pid, ct)], pkg.get_address (some ct), ct))
    ([], "hub", ttime)).1

/-- The deadline-safety guard of apply_2opt (optimizer_helpers.py lines
171-175): skip the reversal if any tracked deadline package inside the
segment would move to a later index within it. -/
def twoOptGuard (dls segment : List Nat) : Bool :=
  dls.any (fun pid =>
    segment.contains pid &&
      decide (segment.indexOf pid < segment.reverse.indexOf pid))

/-- The inner j loop of apply_2opt for one i: return the first strictly
improving, deadline-safe reversal with its distance. -/
def twoOptScanJ (ps : Packages) (dm : List (List ℚ)) (am : List (Addr × Nat))
    (ttime : ℚ) (dls best : List Nat) (best_dist : ℚ) (i : Nat) :
    List Nat → Option (List Nat × ℚ)
  | [] => none
  | j :: js =>
      let segment := (best.take (j + 1)).drop i
      if twoOptGuard dls segment then
        twoOptScanJ ps dm am ttime dls best best_dist i js
      else
        let new_route := best.take i ++ segment.reverse ++ best.drop (j + 1)
        let nd := calculate_route_distance new_route ps dm am ttime
        if nd < best_dist then some (new_route, nd)
        else twoOptScanJ ps dm am ttime dls best best_dist i js

/-- The outer i loop of apply_2opt's scan. -/
def twoOptScanI (ps : Packages) (dm : List (List ℚ)) (am : List (Addr × Nat))
    (ttime : ℚ) (dls best : List Nat) (best_dist : ℚ) :
    List Nat → Option (List Nat × ℚ)
  | [] => none
  | i :: is' =>
      match twoOptScanJ ps dm am ttime dls best best_dist i
          ((List.range best.length).drop (i + 2)) with
      | some r => some r
      | none => twoOptScanI ps dm am ttime dls best best_dist is'

/-- One full scan over all (i, j) pairs, i in range(len-1), j in
range(i+2, len), returning the first accepted improvement. -/
def twoOptScan (ps : Packages) (dm : List (List ℚ)) (am : List (Addr × Nat))
    (ttime : ℚ) (dls best : List Nat) (best_dist : ℚ) :
    Option (List Nat × ℚ) :=
  twoOptScanI ps dm am ttime dls best best_dist
    (List.range (best.length - 1))

/-- The improved-while loop of apply_2opt: rescan from the start after each
accepted improvement, stop at the first scan with none. -/
def twoOptLoop (ps : Packages) (dm : List (List ℚ)) (am : List (Addr × Nat))
    (ttime : ℚ) (dls : List Nat) : Nat → List Nat → ℚ → List Nat
  | 0, best, _ => best
  | fuel + 1, best, best_dist =>
      match twoOptScan ps dm am ttime dls best best_dist with
      | none => best
      | some r => twoOptLoop ps dm am ttime dls fuel r.1 r.2

/-- apply_2opt from src/wgups/optimizer_helpers.py lines 143-186
(= NN2OptOptimizer._apply_2opt): routes of length at most 2 are returned
unchanged; otherwise repeat first-improvement segment reversals guarded by
the deadline index check until a full scan finds none.  Each accepted
reversal strictly decreases the route distance and the reachable routes are
permutations of the input, of which there are at most length!, so the fuel
below makes the recursion equal to the source's unbounded while loop.  The
source also precomputes calculate_delivery_times for the initial route and
discards the result (a pure no-op, not modelled). -/
def apply_2opt (route : List Nat) (ps : Packages) (dm : List (List ℚ))
    (am : List (Addr × Nat)) (ttime : ℚ) : List Nat :=
  if route.length ≤ 2 then route
  else
    let dls := route.filter (fun pid =>
      match ps.lookup pid with
      | some pkg =>
          match pkg.deadline_time with
          | some dl => decide (dl ≤ STRICT_DEADLINE_CUTOFF)
          | none => false
      | none => false)
    twoOptLoop ps dm am ttime dls (Nat.factorial route.length + 1) route
      (calculate_route_distance route ps dm am ttime)

/-- Fallback branch of NN2OptOptimizer.optimize (optimizers.py lines
44-49): nearest neighbour, refine with 2-opt, then append the deferred
address-correction packages. -/
def nn2optFallback (truck : Truck) (current deferred : List Nat)
    (ps : Packages) (dm : List (List ℚ)) (am : List (Addr × Nat)) :
    List Nat :=
  apply_2opt (nearest_neighbor current ps dm am truck.time) ps dm am
    truck.time ++ deferred

/-- NN2OptOptimizer.optimize from src/wgups/optimizers.py lines 23-49 (the
optimizer instantiated by main.py).  The source stashes the active truck on
the package table (packages.truck = truck) for the helpers; here the truck
is passed explicitly.  perm_route is truthy only when it is a non-empty
list. -/
def optimize (truck : Truck) (ps : Packages) (dm : List (List ℚ))
    (am : List (Addr × Nat)) : List Nat :=
  if truck.cargo.isEmpty then []
  else
    let cd := handle_address_corrections truck ps
    let do' := categorize_packages cd.1 ps
    if !do'.1.isEmpty && do'.1.length ≤ 5 then
      match optimize_with_permutations do'.1 do'.2 cd.2 ps dm am truck with
      | some r =>
          if r.isEmpty then nn2optFallback truck cd.1 cd.2 ps dm am else r
      | none => nn2optFallback truck cd.1 cd.2 ps dm am
    else nn2optFallback truck cd.1 cd.2 ps dm am

/-- Python truthiness of an optional int (None and 0 are falsy). -/
def truthyN : Option Nat → Bool
  | none => false
  | some n => n != 0

/-- identify_priority_packages (simulation.py lines 112-120): packages whose
deadline is at or before 9:15. -/
def identify_priority_packages (ps : Packages) : List Nat :=
  (ps.filter (fun kv =>
    match (lookupD ps kv.1).deadline_time with
    | some dl => decide (dl ≤ EARLY_DEADLINE_CUTOFF)
    | none => false)).map (·.1)

/-- identify_truck_specific_packages (lines 122-131), as the pair of the
truck-1 and truck-2 lists. -/
def identify_truck_specific_packages (ps : Packages) : List Nat × List Nat :=
  ps.foldl
    (fun st kv =>
      match (lookupD ps kv.1).only_truck with
      | some 1 => (st.1 ++ [kv.1], st.2)
      | some 2 => (st.1, st.2 ++ [kv.1])
      | _ => st)
    ([], [])

/-- identify_deadline_packages (lines 133-145): deadline at or before 10:30,
available from fleet start, not truck-exclusive. -/
def identify_deadline_packages (ps : Packages) : List Nat :=
  (ps.filter (fun kv =>
    let pkg := lookupD ps kv.1
    (match pkg.deadline_time with
     | some dl => decide (dl ≤ 10 + 30/60)
     | none => false) &&
    decide (pkg.available_time = START_TIME) && !(truthyN pkg.only_truck))).map
    (·.1)

/-- identify_delayed_packages (lines 147-156). -/
def identify_delayed_packages (ps : Packages) : List Nat :=
  (ps.filter (fun kv =>
    decide (START_TIME < (lookupD ps kv.1).available_time))).map (·.1)

/-- identify_standard_packages (lines 158-179): ids outside every constrained
set and every group. -/
def identify_standard_packages (ps : Packages) (priority : List Nat)
    (ts : List Nat × List Nat) (deadline delayed : List Nat)
    (groups : List (List Nat)) : List Nat :=
  let constrained :=
    priority ++ ts.1 ++ ts.2 ++ deadline ++ delayed ++ groups.flatten
  (ps.filter (fun kv => !(constrained.contains kv.1))).map (·.1)

/-- min of a group (Python min over the group set). -/
def groupMin : List Nat → Nat
  | [] => 0
  | x :: xs => xs.foldl Nat.min x

/-- map_packages_to_groups (lines 181-190): package id to smallest group
member id. -/
def map_packages_to_groups (groups : List (List Nat)) : List (Nat × Nat) :=
  groups.foldl
    (fun p2g g => g.foldl (fun p2g pid => p2g ++ [(pid, groupMin g)]) p2g)
    []

/-- identify_critical_groups (lines 192-206): groups containing at least one
deadline-bearing package. -/
def identify_critical_groups (ps : Packages) (groups : List (List Nat)) :
    List (List Nat) :=
  groups.filter (fun g =>
    0 < g.countP (fun pid =>
      ((ps.lookup pid).map (fun pkg => pkg.deadline_time.isSome)).getD false))

/-- Load one package by id onto a truck (a no-op when the id is absent; the
source call sites either guard with an explicit check or can only receive
present ids). -/
def loadPkg (t : Truck) (ps : Packages) (pid : Nat) : Truck × Packages :=
  match ps.lookup pid with
  | none => (t, ps)
  | some p =>
      let r := t.load_package p
      (r.2.1, ps.update pid r.2.2)

/-- load_group_to_truck (simulation.py lines 208-215): only load when the
whole group fits within remaining capacity, then load every member not
already on board. -/
def load_group_to_truck (t : Truck) (group : List Nat) (ps : Packages) :
    Truck × Packages :=
  if t.cargo.length + group.length ≤ t.capacity then
    group.foldl
      (fun st pid =>
        if pid ∈ st.1.cargo then st else loadPkg st.1 st.2 pid)
      (t, ps)
  else (t, ps)

/-- The group of pid under the package-to-group map, in package-table
order: [p for p in packages if p in package_to_group and
package_to_group[p] == package_to_group[pid]]. -/
def groupMembersOf (ps : Packages) (p2g : List (Nat × Nat)) (gid : Nat) :
    List Nat :=
  (ps.filter (fun kv => p2g.lookup kv.1 == some gid)).map (·.1)

/-- load_truck_specific_packages (lines 217-242). -/
def load_truck_specific_packages (t1 t2 : Truck)
    (ts : List Nat × List Nat) (p2g : List (Nat × Nat)) (ps : Packages) :
    Truck × Truck × Packages :=
  let r1 := ts.1.foldl
    (fun (st : Truck × Packages) pid =>
      match p2g.lookup pid with
      | some gid => load_group_to_truck st.1 (groupMembersOf st.2 p2g gid) st.2
      | none =>
          if st.1.has_capacity then loadPkg st.1 st.2 pid else st)
    (t1, ps)
  let r2 := ts.2.foldl
    (fun (st : Truck × Packages) pid =>
      match p2g.lookup pid with
      | some gid => load_group_to_truck st.1 (groupMembersOf st.2 p2g gid) st.2
      | none =>
          if st.1.has_capacity then loadPkg st.1 st.2 pid else st)
    (t2, r1.2)
  (r1.1, r2.1, r2.2)

/-- load_priority_packages (lines 244-263).  NOTE when a priority package's
whole group does not fit, the source loads just the priority package,
splitting the group. -/
def load_priority_packages (t : Truck) (priority : List Nat)
    (p2g : List (Nat × Nat)) (ps : Packages) : Truck × Packages :=
  priority.foldl
    (fun (st : Truck × Packages) pid =>
      if pid ∈ st.1.cargo then st
      else if st.1.has_capacity then
        match p2g.lookup pid with
        | some gid =>
            let members := groupMembersOf st.2 p2g gid
            if st.1.cargo.length + members.length ≤ st.1.capacity then
              load_group_to_truck st.1 members st.2
            else loadPkg st.1 st.2 pid
        | none => loadPkg st.1 st.2 pid
      else st)
    (t, ps)

/-- load_deadline_packages (lines 265-286); sorted ascending by deadline
(missing deadlines sort last, Python's datetime.max). -/
def load_deadline_packages (t : Truck) (deadline : List Nat)
    (p2g : List (Nat × Nat)) (ps : Packages) : Truck × Packages :=
  let sorted := (sortByKey (deadline.map (fun p =>
    (p, (((ps.lookup p).bind Package.deadline_time)).getD 1000000)))).map (·.1)
  sorted.foldl
    (fun (st : Truck × Packages) pid =>
      if pid ∈ st.1.cargo then st
      else
        match p2g.lookup pid with
        | some gid =>
            let members := (groupMembersOf st.2 p2g gid).filter
              (fun p => !(st.1.cargo.contains p))
            if members.isEmpty then st
            else load_group_to_truck st.1 members st.2
        | none =>
            if st.1.has_capacity then loadPkg st.1 st.2 pid else st)
    (t, ps)

/-- load_delayed_packages (lines 288-295). -/
def load_delayed_packages (t : Truck) (delayed : List Nat)
    (p2g : List (Nat × Nat)) (ps : Packages) : Truck × Packages :=
  delayed.foldl
    (fun (st : Truck × Packages) pid =>
      if pid ∈ st.1.cargo then st
      else if st.1.has_capacity then loadPkg st.1 st.2 pid
      else st)
    (t, ps)

/-- The random representative pick of calculate_center: random.choice on the
cargo list, modelled as an explicit choice oracle. -/
abbrev Choice := List Nat → Nat

/-- calculate_center (simulation.py lines 401-409): None for an empty cargo,
else the raw address of a randomly chosen on-board package. -/
def calculate_center (cargo_ids : List Nat) (ps : Packages)
    (choice : Choice) : Option Addr :=
  if cargo_ids.isEmpty then none
  else some ((lookupD ps (choice cargo_ids)).address)

/-- Optional distances with none as float inf: inf <= inf is true. -/
def oleInf : Option ℚ → Option ℚ → Bool
  | none, none => true
  | none, some _ => false
  | some _, none => true
  | some a, some b => a ≤ b

/-- Optional distances with none as float inf: inf < inf is false. -/
def oltInf : Option ℚ → Option ℚ → Bool
  | none, none => false
  | none, some _ => false
  | some _, none => true
  | some a, some b => a < b

/-- load_by_proximity (simulation.py lines 359-399): skip when no standard
packages remain; otherwise pick one random centre per truck and assign each
standard package to the nearer centre with capacity, falling back to any
truck with capacity.  The hub_distances dict the source computes is never
read afterwards and is not modelled. -/
def load_by_proximity (t1 t2 : Truck) (std : List Nat) (ps : Packages)
    (dm : List (List ℚ)) (am : List (Addr × Nat)) (choice : Choice) :
    Truck × Truck × Packages :=
  if std.isEmpty then (t1, t2, ps)
  else
    let c1 := calculate_center t1.cargo ps choice
    let c2 := calculate_center t2.cargo ps choice
    std.foldl
      (fun (st : Truck × Truck × Packages) pid =>
        if pid ∈ st.1.cargo ∨ pid ∈ st.2.1.cargo then st
        else
          match st.2.2.lookup pid with
          | none => st
          | some pkg =>
              let d1 := c1.map (fun c => get_distance pkg.address c dm am)
              let d2 := c2.map (fun c => get_distance pkg.address c dm am)
              if oleInf d1 d2 && st.1.has_capacity then
                let r := loadPkg st.1 st.2.2 pid
                (r.1, st.2.1, r.2)
              else if oltInf d2 d1 && st.2.1.has_capacity then
                let r := loadPkg st.2.1 st.2.2 pid
                (st.1, r.1, r.2)
              else if st.1.has_capacity then
                let r := loadPkg st.1 st.2.2 pid
                (r.1, st.2.1, r.2)
              else if st.2.1.has_capacity then
                let r := loadPkg st.2.1 st.2.2 pid
                (st.1, r.1, r.2)
              else st)
      (t1, t2, ps)

/-- deliver_remaining_packages (simulation.py lines 337-357): re-open the
truck that returned first for whatever is still undelivered, re-plan and
re-execute.  Both return times are set by the time this runs; Python would
raise on None (getD is never reached in this file's developments). -/
def deliver_remaining_packages (t1 t2 : Truck) (ps : Packages)
    (dm : List (List ℚ)) (am : List (Addr × Nat)) :
    Truck × Truck × Packages :=
  let remaining :=
    (ps.filter (fun kv => kv.2.status ≠ Status.delivered)).map (·.1)
  if remaining.isEmpty then (t1, t2, ps)
  else if t1.return_time.getD 0 ≤ t2.return_time.getD 0 then
    let t := { t1 with time := t1.return_time.getD t1.time }
    let r := remaining.foldl
      (fun (st : Truck × Packages) pid =>
        if st.1.has_capacity then loadPkg st.1 st.2 pid else st)
      (t, ps)
    if r.1.cargo.isEmpty then (r.1, t2, r.2)
    else
      let t' := r.1.set_route (optimize r.1 r.2 dm am)
      let e := execute_route t' r.2 dm am
      (e.1, t2, e.2)
  else
    let t := { t2 with time := t2.return_time.getD t2.time }
    let r := remaining.foldl
      (fun (st : Truck × Packages) pid =>
        if st.1.has_capacity then loadPkg st.1 st.2 pid else st)
      (t, ps)
    if r.1.cargo.isEmpty then (t1, r.1, r.2)
    else
      let t' := r.1.set_route (optimize r.1 r.2 dm am)
      let e := execute_route t' r.2 dm am
      (t1, e.1, e.2)

/-- constraints_satisfied from src/wgups/simulation.py lines 488-510.  The
deadline pass flags only packages with BOTH a deadline and a recorded
delivery instant; a never-delivered deadline package passes.  The group
check is a stub that always reports satisfied (the source comment calls it
simplified).  The trucks argument of the source is unused. -/
def constraints_satisfied (ps : Packages) : Bool :=
  let all_deadlines_met := ps.all (fun kv =>
    !(match kv.2.deadline_time, kv.2.delivery_time with
      | some dl, some dt => decide (dl < dt)
      | _, _ => false))
  let all_trucks_respected := ps.all (fun kv =>
    !(truthyN kv.2.only_truck && kv.2.truck_assigned != kv.2.only_truck))
  let all_groups_kept := true
  all_deadlines_met && all_trucks_respected && all_groups_kept

/-- Steps 1-5 of run_simulation (simulation.py lines 27-80) up to and
including the computation of the standard package list, i.e. everything
before the only randomized call (load_by_proximity). -/
def preassign (ps0 : Packages) (_dm : List (List ℚ))
    (_am : List (Addr × Nat)) : Truck × Truck × Packages × List Nat :=
  let package_group := resolve_package_groups ps0
  let truck1 := Truck.init 1 START_TIME
  let truck2 := Truck.init 2 (9 + 5/60)
  let priority := identify_priority_packages ps0
  let ts := identify_truck_specific_packages ps0
  let deadline := identify_deadline_packages ps0
  let delayed := identify_delayed_packages ps0
  let p2g := map_packages_to_groups package_group
  let critical := identify_critical_groups ps0 package_group
  let r1 := load_truck_specific_packages truck1 truck2 ts p2g ps0
  let r2 := critical.foldl
    (fun (st : Truck × Packages) g => load_group_to_truck st.1 g st.2)
    (r1.1, r1.2.2)
  let r3 := load_priority_packages r2.1 priority p2g r2.2
  let r4 := load_deadline_packages r3.1 deadline p2g r3.2
  let r5 := load_delayed_packages r1.2.1 delayed p2g r4.2
  let standard :=
    identify_standard_packages r5.2 priority ts deadline delayed package_group
  (r4.1, r5.1, r5.2, standard)

/-- Step 6 of run_simulation (execute=True branch, lines 86-97): plan and
execute truck 1, then truck 2, then hand leftovers to the earliest-returned
truck. -/
def execPhase (t1 t2 : Truck) (ps : Packages) (dm : List (List ℚ))
    (am : List (Addr × Nat)) : Packages × Truck × Truck :=
  let t1 := t1.set_route (optimize t1 ps dm am)
  let e1 := execute_route t1 ps dm am
  let t2 := t2.set_route (optimize t2 e1.2 dm am)
  let e2 := execute_route t2 e1.2 dm am
  let fin := deliver_remaining_packages e1.1 e2.1 e2.2 dm am
  (fin.2.2, fin.1, fin.2.1)

/-- run_simulation from src/wgups/simulation.py (execute=True, reporting
suppressed), over an explicit package table, distance data and choice
oracle standing for load_packages/load_distances and random.choice. -/
def run_simulation (ps0 : Packages) (dm : List (List ℚ))
    (am : List (Addr × Nat)) (choice : Choice) : Packages × Truck × Truck :=
  let pre := preassign ps0 dm am
  let lp := load_by_proximity pre.1 pre.2.1 pre.2.2.2 pre.2.2.1 dm am choice
  execPhase lp.1 lp.2.1 lp.2.2 dm am

/-! Concrete inputs for witnesses and counterexamples. -/

/-- A fresh package with no constraints, as loaded from static input data. -/
def demoPkg (pid : Nat) (addr : Addr) : Package :=
  { package_id := pid, address := addr, deadline_time := none
    available_time := START_TIME, only_truck := none, group_with := []
    corrected_address := none, correction_time := none
    original_address := addr, status := .atHub, truck_assigned := none
    departure_time := none, delivery_time := none, defer_count := 0 }

/-- Geography with five stops, used by the 2-opt and permutation claims. -/
def C4am : List (Addr × Nat) :=
  [("hub", 0), ("a", 1), ("b", 2), ("c", 3), ("d", 4)]

/-- Symmetric distance table over C4am (zero diagonal, as in the source's
distance CSV). -/
def C4dm : List (List ℚ) :=
  [[0, 1, 2, 5, 20],
   [1, 0, 1, 1, 10],
   [2, 1, 0, 1, 1],
   [5, 1, 1, 0, 1],
   [20, 10, 1, 1, 0]]

/-- Four packages at a, b, c, d; only package 4 carries a deadline (10:00). -/
def C4ps : Packages :=
  [(1, demoPkg 1 "a"), (2, demoPkg 2 "b"), (3, demoPkg 3 "c"),
   (4, { demoPkg 4 "d" with deadline_time := some 10 })]

/-- Two packages; package 1 carries a 10:30 deadline. -/
def C5ps : Packages :=
  [(1, { demoPkg 1 "a" with deadline_time := some (10 + 30/60) }),
   (2, demoPkg 2 "b")]

/-- A fresh truck at fleet start. -/
def C5truck : Truck := Truck.init 1 START_TIME

/-- A loaded en-route package whose address correction only lands at 20:00
(far beyond the 30-minute wait horizon). -/
def C1pkg : Package :=
  { demoPkg 1 "a" with correction_time := some 20
                       corrected_address := some "z"
                       status := .enRoute, truck_assigned := some 1 }

/-- The truck carrying C1pkg with the single-package route. -/
def C1truck : Truck :=
  { Truck.init 1 START_TIME with cargo := [1], route := [1]
                                 status := .enRoute }

/-- Two-stop geography for the execute_route scenario. -/
def C1am : List (Addr × Nat) := [("hub", 0), ("a", 1)]

/-- Distance table for C1am. -/
def C1dm : List (List ℚ) := [[0, 1], [1, 0]]

/-- Two disjoint must-travel-together pairs: 1 with 2, and 3 with 4 (the
note parser records the relation on the first member, as in the source's
own unit test). -/
def C2ps : Packages :=
  [(1, { demoPkg 1 "a" with group_with := [2] }), (2, demoPkg 2 "a"),
   (3, { demoPkg 3 "a" with group_with := [4] }), (4, demoPkg 4 "a")]

/-- A deadline-bearing package that was never delivered. -/
def C3pkg : Package :=
  { demoPkg 5 "a" with deadline_time := some 9 }

/-- A truck of capacity 1 that is already full. -/
def C8truck : Truck :=
  { Truck.init 1 START_TIME with capacity := 1, cargo := [7] }

/-- Choice oracle modelling a random.choice call that picks the first
element. -/
def chooseFirst : Choice := fun l => l.headD 0

/-- Choice oracle modelling a random.choice call that picks the last
element. -/
def chooseLast : Choice := fun l => l.getLastD 0

/-- Geography for the group-atomicity scenario: the hub, the two grouped
stops a and b, and the shared stop f of the truck-1 fillers. -/
def C6am : List (Addr × Nat) :=
  [("hub", 0), ("a", 1), ("b", 2), ("f", 3)]

/-- Symmetric distance table over C6am. -/
def C6dm : List (List ℚ) :=
  [[0, 1, 1, 30],
   [1, 0, 1, 30],
   [1, 1, 0, 30],
   [30, 30, 30, 0]]

/-- Seventeen packages: package 1 (deadline 9:15) must travel with package
2; packages 3-17 are truck-1-exclusive fillers that leave exactly one free
slot on truck 1. -/
def C6ps : Packages :=
  (1, { demoPkg 1 "a" with deadline_time := some EARLY_DEADLINE_CUTOFF
                           group_with := [2] }) ::
  (2, demoPkg 2 "b") ::
  (List.range 15).map
    (fun k => (k + 3, { demoPkg (k + 3) "f" with only_truck := some 1 }))

/-- The trial outcome for the group-atomicity scenario (the choice oracle is
never consulted: no standard packages remain). -/
def C6res : Packages × Truck × Truck :=
  run_simulation C6ps C6dm C6am chooseFirst

/-- Geography for the determinism scenario. -/
def C7am : List (Addr × Nat) :=
  [("hub", 0), ("a1", 1), ("a2", 2), ("b", 3), ("x", 4), ("g", 5)]

/-- Symmetric distance table over C7am: the standard package at x is nearer
to a1 than to b, and nearer to b than to a2. -/
def C7dm : List (List ℚ) :=
  [[0, 1, 1, 1, 1, 1],
   [1, 0, 1, 1, 1, 1],
   [1, 1, 0, 1, 5, 1],
   [1, 1, 1, 0, 2, 1],
   [1, 1, 5, 2, 0, 1],
   [1, 1, 1, 1, 1, 0]]

/-- Six packages: two truck-1-exclusive stops a1 and a2, one
truck-2-exclusive stop b, one unconstrained package at x, and a group pair
at g. -/
def C7ps : Packages :=
  [(1, { demoPkg 1 "a1" with only_truck := some 1 }),
   (2, { demoPkg 2 "a2" with only_truck := some 1 }),
   (3, { demoPkg 3 "b" with only_truck := some 2 }),
   (4, demoPkg 4 "x"),
   (5, { demoPkg 5 "g" with group_with := [6] }),
   (6, demoPkg 6 "g")]

/-- Trial outcome when every random.choice picks the first cargo element. -/
def C7A : Packages × Truck × Truck :=
  run_simulation C7ps C7dm C7am chooseFirst

/-- Trial outcome when every random.choice picks the last cargo element. -/
def C7B : Packages × Truck × Truck :=
  run_simulation C7ps C7dm C7am chooseLast

/-- The spec's statement of the route-distance round trip (spec section 8):
the sum over consecutive legs from the previous stop, starting at the hub,
to the next package's effective address, plus the final leg from the last
stop back to the depot. -/
def spec_route_distance (route : List Nat) (ps : Packages)
    (dm : List (List ℚ)) (am : List (Addr × Nat)) (ttime : ℚ) : ℚ :=
  let stops := route.map (fun pid => (lookupD ps pid).get_address (some ttime))
  (List.zipWith (fun a b => get_distance a b dm am) ("hub" :: stops)
    stops).sum + get_distance (stops.getLastD "hub") "hub" dm am


theorem deadline_flag_iff (p : Package) :
    (!(match p.deadline_time, p.delivery_time with
       | some dl, some dt => decide (dl < dt)
       | _, _ => false)) = true ↔
    ∀ dl dt : ℚ, p.deadline_time = some dl → p.delivery_time = some dt →
      dt ≤ dl := by
  cases h1 : p.deadline_time with
  | none => simp
  | some dl =>
      cases h2 : p.delivery_time with
      | none => simp
      | some dt =>
          simp only [Bool.not_eq_true', decide_eq_false_iff_not, not_lt,
            Option.some.injEq]
          constructor
          · rintro h dl' dt' rfl rfl
            exact h
          · intro h
            exact h dl dt rfl rfl

theorem truck_flag_iff (p : Package) :
    (!(truthyN p.only_truck && p.truck_assigned != p.only_truck)) = true ↔
    ∀ t : Nat, p.only_truck = some t → t ≠ 0 → p.truck_assigned = some t := by
  cases h1 : p.only_truck with
  | none => simp [truthyN]
  | some t =>
      rcases Nat.eq_zero_or_pos t with h0 | hpos
      · subst h0
        simp [truthyN]
      · have ht : t ≠ 0 := Nat.pos_iff_ne_zero.mp hpos
        have htr : (t != 0) = true := bne_iff_ne.mpr ht
        simp only [truthyN, htr, Bool.true_and, Bool.not_eq_true',
          bne_eq_false_iff_eq, Option.some.injEq]
        constructor
        · rintro h t' rfl _
          exact h
        · intro h
          exact h t rfl ht

theorem lastGroupToList_spec (o : Option (List Nat)) :
    (lastGroupToList o).length ≤ 1 ∧
    ∀ g₁ ∈ lastGroupToList o, ∀ g₂ ∈ lastGroupToList o, g₁ = g₂ := by
  cases o <;> simp [lastGroupToList]

/-- C2 amended: resolve_package_groups returns at most one group (the
connected component discovered last; lastGroupToList), so no package
belongs to two distinct returned groups, but packages of earlier components
appear in no returned group (see C2_counterexample). -/
theorem C2_last_component_only (ps : Packages) :
    (resolve_package_groups ps).length ≤ 1 ∧
    (∀ g₁ ∈ resolve_package_groups ps, ∀ g₂ ∈ resolve_package_groups ps,
      g₁ = g₂) :=
  lastGroupToList_spec _

/-- C3 amended: constraints_satisfied reports satisfied exactly when every
deadline-bearing package WITH a recorded delivery instant met its deadline
and every vehicle-exclusive package is assigned its required vehicle; a
deadline package with no delivery instant is not flagged (see
C3_counterexample). -/
theorem C3_constraints_satisfied_iff (ps : Packages) :
    constraints_satisfied ps = true ↔
      ((∀ kv ∈ ps, ∀ dl dt : ℚ, (kv : Nat × Package).2.deadline_time = some dl →
          kv.2.delivery_time = some dt → dt ≤ dl) ∧
       (∀ kv ∈ ps, ∀ t : Nat, (kv : Nat × Package).2.only_truck = some t →
          t ≠ 0 → kv.2.truck_assigned = some t)) := by
  unfold constraints_satisfied
  simp only [Bool.and_true, Bool.and_eq_true, List.all_eq_true]
  constructor
  · rintro ⟨h1, h2⟩
    exact ⟨fun kv hkv => (deadline_flag_iff kv.2).mp (h1 kv hkv),
           fun kv hkv => (truck_flag_iff kv.2).mp (h2 kv hkv)⟩
  · rintro ⟨h1, h2⟩
    exact ⟨fun kv hkv => (deadline_flag_iff kv.2).mpr (h1 kv hkv),
           fun kv hkv => (truck_flag_iff kv.2).mpr (h2 kv hkv)⟩

/-- C10: for a package with a pending correction, get_address with no time
argument returns the (normalized) corrected address even before the
correction instant; only an explicit time strictly earlier than the
correction instant yields the original address, and any later-or-equal time
again yields the corrected one. -/
theorem C10_get_address_correction (p : Package) (ct : ℚ) (ca : Addr)
    (h1 : p.correction_time = some ct) (h2 : p.corrected_address = some ca) :
    p.get_address none = normalize_address ca ∧
    (∀ t : ℚ, t < ct → p.get_address (some t) =
      normalize_address p.original_address) ∧
    (∀ t : ℚ, ¬ t < ct → p.get_address (some t) = normalize_address ca) := by
  refine ⟨?_, ?_, ?_⟩
  · simp [Package.get_address, h1, h2]
  · intro t ht; simp [Package.get_address, h1, h2, ht]
  · intro t ht; simp [Package.get_address, h1, h2, ht]

/-- C10 witness: evaluated on the pending-correction package C1pkg. -/
theorem C10_get_address_correction_witness :
    C1pkg.get_address none = normalize_address "z" :=
  (C10_get_address_correction C1pkg 20 "z" rfl rfl).1

theorem load_package_contract (t : Truck) (p : Package) :
    (t.cargo.length ≤ t.capacity →
      (t.load_package p).2.1.cargo.length ≤ t.capacity) ∧
    (t.capacity ≤ t.cargo.length →
      (t.load_package p).1 = false ∧ (t.load_package p).2.1 = t ∧
        (t.load_package p).2.2 = p) := by
  unfold Truck.load_package
  by_cases h : t.capacity ≤ t.cargo.length
  · simp [h]
  · push_neg at h
    simp [Nat.not_le.mpr h]
    intro _
    simpa using Nat.succ_le_of_lt h

theorem crdGo_eq_spec (ps : Packages) (dm : List (List ℚ))
    (am : List (Addr × Nat)) (ttime : ℚ) (route : List Nat) :
    ∀ loc : Addr,
      crdGo ps dm am ttime route loc =
        (List.zipWith (fun a b => get_distance a b dm am)
          (loc :: route.map
            (fun pid => (lookupD ps pid).get_address (some ttime)))
          (route.map
            (fun pid => (lookupD ps pid).get_address (some ttime)))).sum +
        get_distance
          ((route.map
            (fun pid => (lookupD ps pid).get_address (some ttime))).getLastD
              loc) "hub" dm am := by
  induction route with
  | nil => intro loc; simp [crdGo]
  | cons pid rest ih =>
      intro loc
      simp only [crdGo, List.map_cons, List.zipWith, List.sum_cons,
        List.getLastD_cons]
      rw [ih]
      ring

/-- C9: calculate_route_distance equals the spec's sum of consecutive legs
from the hub through the packages' effective addresses plus the final
hub-return leg, for every route; the empty route evaluates to the
hub-to-hub entry, hence to 0 whenever that diagonal entry is 0 (as in the
source's distance table). -/
theorem C9_distance_round_trip (route : List Nat) (ps : Packages) (dm : List (List ℚ))
    (am : List (Addr × Nat)) (ttime : ℚ) :
    calculate_route_distance route ps dm am ttime =
      spec_route_distance route ps dm am ttime ∧
    (get_distance "hub" "hub" dm am = 0 →
      calculate_route_distance [] ps dm am ttime = 0) := by
  constructor
  · unfold calculate_route_distance spec_route_distance
    exact crdGo_eq_spec ps dm am ttime route "hub"
  · intro h
    simp [calculate_route_distance, crdGo, h]

/-- C9 witness: the round-trip identity at a concrete route and the empty
route over the zero-diagonal table C4dm. -/
theorem C9_distance_round_trip_witness :
    calculate_route_distance [1, 2] C4ps C4dm C4am 8 =
      spec_route_distance [1, 2] C4ps C4dm C4am 8 ∧
    calculate_route_distance [] C4ps C4dm C4am 8 = 0 :=
  ⟨(C9_distance_round_trip [1, 2] C4ps C4dm C4am 8).1,
   (C9_distance_round_trip [] C4ps C4dm C4am 8).2 (by decide!)⟩


theorem twoOptScanJ_spec (ps : Packages) (dm : List (List ℚ))
    (am : List (Addr × Nat)) (ttime : ℚ) (dls best : List Nat)
    (best_dist : ℚ) (i : Nat) :
    ∀ (js : List Nat) (r : List Nat) (d : ℚ),
      twoOptScanJ ps dm am ttime dls best best_dist i js = some (r, d) →
      d = calculate_route_distance r ps dm am ttime ∧ d < best_dist := by
  intro js
  induction js with
  | nil => intro r d h; simp [twoOptScanJ] at h
  | cons j js ih =>
      intro r d h
      simp only [twoOptScanJ] at h
      split at h
      · exact ih r d h
      · split at h
        next hlt =>
          simp only [Option.some.injEq, Prod.mk.injEq] at h
          obtain ⟨rfl, rfl⟩ := h
          exact ⟨rfl, hlt⟩
        next => exact ih r d h

theorem twoOptScanI_spec (ps : Packages) (dm : List (List ℚ))
    (am : List (Addr × Nat)) (ttime : ℚ) (dls best : List Nat)
    (best_dist : ℚ) :
    ∀ (is' : List Nat) (r : List Nat) (d : ℚ),
      twoOptScanI ps dm am ttime dls best best_dist is' = some (r, d) →
      d = calculate_route_distance r ps dm am ttime ∧ d < best_dist := by
  intro is'
  induction is' with
  | nil => intro r d h; simp [twoOptScanI] at h
  | cons i is' ih =>
      intro r d h
      simp only [twoOptScanI] at h
      split at h
      next heq =>
        simp only [Option.some.injEq] at h
        subst h
        exact twoOptScanJ_spec ps dm am ttime dls best best_dist i _ r d heq
      next => exact ih r d h

theorem twoOptLoop_dist_le (ps : Packages) (dm : List (List ℚ))
    (am : List (Addr × Nat)) (ttime : ℚ) (dls : List Nat) :
    ∀ (fuel : Nat) (best : List Nat) (bd : ℚ),
      bd = calculate_route_distance best ps dm am ttime →
      calculate_route_distance (twoOptLoop ps dm am ttime dls fuel best bd)
        ps dm am ttime ≤ bd := by
  intro fuel
  induction fuel with
  | zero => intro best bd h; simp [twoOptLoop, h]
  | succ n ih =>
      intro best bd h
      simp only [twoOptLoop]
      cases hscan : twoOptScan ps dm am ttime dls best bd with
      | none => simp [h]
      | some r =>
          obtain ⟨hd, hlt⟩ :=
            twoOptScanI_spec ps dm am ttime dls best bd _ r.1 r.2
              (by simpa [twoOptScan] using hscan)
          exact le_of_lt (lt_of_le_of_lt (ih r.1 r.2 hd) hlt)

/-- C4 amended: apply_2opt never increases the total round-trip distance of
the route (each accepted reversal strictly decreases it).  The claimed
completion-time monotonicity for deadline packages fails (see
C4_counterexample): the guard constrains only index positions within the
reversed segment. -/
theorem C4_two_opt_distance_nonincreasing (route : List Nat) (ps : Packages)
    (dm : List (List ℚ)) (am : List (Addr × Nat)) (ttime : ℚ) :
    calculate_route_distance (apply_2opt route ps dm am ttime) ps dm am
      ttime ≤ calculate_route_distance route ps dm am ttime := by
  unfold apply_2opt
  split
  · exact le_refl _
  · exact twoOptLoop_dist_le ps dm am ttime _ _ route _ rfl

theorem picks_perm : ∀ (l : List Nat) (x : Nat) (r : List Nat),
    (x, r) ∈ picks l → (x :: r).Perm l := by
  intro l
  induction l with
  | nil => intro x r h; simp [picks] at h
  | cons y ys ih =>
      intro x r h
      simp only [picks, List.mem_cons, List.mem_map] at h
      rcases h with h | ⟨p, hp, heq⟩
      · rw [Prod.mk.injEq] at h
        obtain ⟨rfl, rfl⟩ := h
        exact List.Perm.refl _
      · rw [Prod.mk.injEq] at heq
        obtain ⟨rfl, rfl⟩ := heq
        exact (List.Perm.swap y p.1 p.2).trans ((ih p.1 p.2 hp).cons y)

theorem picks_complete : ∀ (l : List Nat) (a : Nat), a ∈ l →
    ∃ r, (a, r) ∈ picks l ∧ r.Perm (l.erase a) := by
  intro l
  induction l with
  | nil => intro a h; simp at h
  | cons y ys ih =>
      intro a h
      by_cases hya : y = a
      · subst hya
        refine ⟨ys, by simp [picks], ?_⟩
        rw [List.erase_cons_head]
      · have ha : a ∈ ys := by
          rcases List.mem_cons.mp h with h | h
          · exact absurd h.symm hya
          · exact h
        obtain ⟨r, hr, hperm⟩ := ih a ha
        refine ⟨y :: r, ?_, ?_⟩
        · simp only [picks, List.mem_cons, List.mem_map]
          exact Or.inr ⟨(a, r), hr, rfl⟩
        · rw [List.erase_cons_tail]
          · exact hperm.cons y
          · simp [hya]

theorem picks_length (l : List Nat) (x : Nat) (r : List Nat)
    (h : (x, r) ∈ picks l) : r.length + 1 = l.length := by
  simpa using (picks_perm l x r h).length_eq

theorem permsLexAux_sound : ∀ (n : Nat) (l : List Nat) (p : List Nat),
    l.length = n → p ∈ permsLexAux n l → p.Perm l := by
  intro n
  induction n with
  | zero =>
      intro l p hl hp
      simp only [permsLexAux, List.mem_singleton] at hp
      subst hp
      have hnil : l = [] := List.length_eq_zero.mp hl
      subst hnil
      exact List.Perm.nil
  | succ n ih =>
      intro l p hl hp
      simp only [permsLexAux, List.mem_flatMap, List.mem_map] at hp
      obtain ⟨pr, hpr, q, hq, rfl⟩ := hp
      have hlen : pr.2.length = n := by
        have := picks_length l pr.1 pr.2 (by simpa using hpr)
        omega
      exact ((ih pr.2 q hlen hq).cons pr.1).trans
        (picks_perm l pr.1 pr.2 (by simpa using hpr))

theorem permsLexAux_complete : ∀ (p l : List Nat), p.Perm l →
    p ∈ permsLexAux l.length l := by
  intro p
  induction p with
  | nil =>
      intro l h
      have hnil : l = [] := h.symm.eq_nil
      subst hnil
      simp [permsLexAux]
  | cons a q ih =>
      intro l h
      have ha : a ∈ l := h.mem_iff.mp (List.mem_cons_self a q)
      have hq : q.Perm (l.erase a) :=
        (List.cons_perm_iff_perm_erase.mp h).2
      obtain ⟨r, hr, hperm⟩ := picks_complete l a ha
      have hql : q.Perm r := hq.trans hperm.symm
      have hrlen : r.length = q.length := hql.length_eq.symm
      have hl : l.length = q.length + 1 := by
        have := h.length_eq
        simpa using this.symm
      rw [hl]
      simp only [permsLexAux, List.mem_flatMap]
      refine ⟨(a, r), hr, ?_⟩
      simp only [List.mem_map]
      exact ⟨q, hrlen ▸ ih r hql, rfl⟩

theorem bestPerm_spec (ps : Packages) (dm : List (List ℚ))
    (am : List (Addr × Nat)) (speed time0 : ℚ) :
    ∀ (perms : List (List Nat)) (acc : Option (List Nat × ℚ)),
      (∀ bp bd, acc = some (bp, bd) →
        permSim ps dm am speed bp time0 "hub" 0 = some bd) →
      ((bestPerm ps dm am speed time0 perms acc = none →
          acc = none ∧
          ∀ p ∈ perms, permSim ps dm am speed p time0 "hub" 0 = none) ∧
       (∀ r rd, bestPerm ps dm am speed time0 perms acc = some (r, rd) →
          permSim ps dm am speed r time0 "hub" 0 = some rd ∧
          (acc = some (r, rd) ∨ r ∈ perms) ∧
          (∀ q ∈ perms, ∀ dq,
            permSim ps dm am speed q time0 "hub" 0 = some dq → rd ≤ dq) ∧
          (∀ bp bd, acc = some (bp, bd) → rd ≤ bd))) := by
  intro perms
  induction perms with
  | nil =>
      intro acc hacc
      constructor
      · intro h
        simp only [bestPerm] at h
        exact ⟨h, by simp⟩
      · intro r rd h
        simp only [bestPerm] at h
        refine ⟨hacc r rd h, Or.inl h, by simp, ?_⟩
        intro bp bd hbp
        rw [h] at hbp
        simp only [Option.some.injEq, Prod.mk.injEq] at hbp
        exact le_of_eq hbp.2
  | cons p rest ih =>
      intro acc hacc
      simp only [bestPerm]
      cases hsim : permSim ps dm am speed p time0 "hub" 0 with
      | none =>
          obtain ⟨ih1, ih2⟩ := ih acc hacc
          constructor
          · intro h
            obtain ⟨ha, hall⟩ := ih1 h
            refine ⟨ha, ?_⟩
            intro q hq
            rcases List.mem_cons.mp hq with rfl | hq'
            · exact hsim
            · exact hall q hq'
          · intro r rd h
            obtain ⟨s1, s2, s3, s4⟩ := ih2 r rd h
            refine ⟨s1, ?_, ?_, s4⟩
            · rcases s2 with s2 | s2
              · exact Or.inl s2
              · exact Or.inr (List.mem_cons_of_mem p s2)
            · intro q hq dq hdq
              rcases List.mem_cons.mp hq with rfl | hq'
              · rw [hsim] at hdq
                cases hdq
              · exact s3 q hq' dq hdq
      | some d =>
          cases acc with
          | none =>
              have hacc' : ∀ bp bd,
                  (some (p, d) : Option (List Nat × ℚ)) = some (bp, bd) →
                  permSim ps dm am speed bp time0 "hub" 0 = some bd := by
                intro bp bd hbp
                simp only [Option.some.injEq, Prod.mk.injEq] at hbp
                rw [← hbp.1, ← hbp.2]
                exact hsim
              obtain ⟨ih1, ih2⟩ := ih (some (p, d)) hacc'
              constructor
              · intro h
                obtain ⟨ha, _⟩ := ih1 h
                cases ha
              · intro r rd h
                obtain ⟨s1, s2, s3, s4⟩ := ih2 r rd h
                have hrd : rd ≤ d := s4 p d rfl
                refine ⟨s1, ?_, ?_, by simp⟩
                · rcases s2 with s2 | s2
                  · refine Or.inr ?_
                    simp only [Option.some.injEq, Prod.mk.injEq] at s2
                    rw [← s2.1]
                    exact List.mem_cons_self p rest
                  · exact Or.inr (List.mem_cons_of_mem p s2)
                · intro q hq dq hdq
                  rcases List.mem_cons.mp hq with rfl | hq'
                  · rw [hsim] at hdq
                    simp only [Option.some.injEq] at hdq
                    subst hdq
                    exact hrd
                  · exact s3 q hq' dq hdq
          | some pr =>
              dsimp only
              by_cases hd : d < pr.2
              · rw [if_pos hd]
                have hacc' : ∀ bp bd,
                    (some (p, d) : Option (List Nat × ℚ)) = some (bp, bd) →
                    permSim ps dm am speed bp time0 "hub" 0 = some bd := by
                  intro bp bd hbp
                  simp only [Option.some.injEq, Prod.mk.injEq] at hbp
                  rw [← hbp.1, ← hbp.2]
                  exact hsim
                obtain ⟨ih1, ih2⟩ := ih (some (p, d)) hacc'
                constructor
                · intro h
                  obtain ⟨ha, _⟩ := ih1 h
                  cases ha
                · intro r rd h
                  obtain ⟨s1, s2, s3, s4⟩ := ih2 r rd h
                  have hrd : rd ≤ d := s4 p d rfl
                  refine ⟨s1, ?_, ?_, ?_⟩
                  · rcases s2 with s2 | s2
                    · refine Or.inr ?_
                      simp only [Option.some.injEq, Prod.mk.injEq] at s2
                      rw [← s2.1]
                      exact List.mem_cons_self p rest
                    · exact Or.inr (List.mem_cons_of_mem p s2)
                  · intro q hq dq hdq
                    rcases List.mem_cons.mp hq with rfl | hq'
                    · rw [hsim] at hdq
                      simp only [Option.some.injEq] at hdq
                      subst hdq
                      exact hrd
                    · exact s3 q hq' dq hdq
                  · intro bp bd hbp
                    simp only [Option.some.injEq] at hbp
                    subst hbp
                    exact le_of_lt (lt_of_le_of_lt hrd hd)
              · rw [if_neg hd]
                obtain ⟨ih1, ih2⟩ := ih (some pr) hacc
                constructor
                · intro h
                  obtain ⟨ha, _⟩ := ih1 h
                  cases ha
                · intro r rd h
                  obtain ⟨s1, s2, s3, s4⟩ := ih2 r rd h
                  have hrd : rd ≤ pr.2 := s4 pr.1 pr.2 rfl
                  refine ⟨s1, ?_, ?_, s4⟩
                  · rcases s2 with s2 | s2
                    · exact Or.inl s2
                    · exact Or.inr (List.mem_cons_of_mem p s2)
                  · intro q hq dq hdq
                    rcases List.mem_cons.mp hq with rfl | hq'
                    · rw [hsim] at hdq
                      simp only [Option.some.injEq] at hdq
                      subst hdq
                      exact le_trans hrd (not_lt.mp hd)
                    · exact s3 q hq' dq hdq

theorem bestPerm_unchanged (ps : Packages) (dm : List (List ℚ))
    (am : List (Addr × Nat)) (speed time0 : ℚ) :
    ∀ (perms : List (List Nat)) (acc : Option (List Nat × ℚ)),
      (∀ p ∈ perms, permSim ps dm am speed p time0 "hub" 0 = none) →
      bestPerm ps dm am speed time0 perms acc = acc := by
  intro perms
  induction perms with
  | nil => intro acc _; rfl
  | cons p rest ih =>
      intro acc hall
      have hp := hall p (List.mem_cons_self p rest)
      simp only [bestPerm]
      rw [hp]
      exact ih acc (fun q hq => hall q (List.mem_cons_of_mem p hq))

/-- C5 amended: for every NON-EMPTY deadline subset of size at most 5 with
at least one time-feasible permutation, optimize_with_permutations returns
a route whose leading segment is a time-feasible permutation of the subset
of minimum simulated directed distance among all feasible permutations;
when no permutation is feasible it returns none.  The empty subset is the
exception the source mishandles (see C5_counterexample). -/
theorem C5_permutation_search_optimal (deadlines others deferred : List Nat) (ps : Packages)
    (dm : List (List ℚ)) (am : List (Addr × Nat)) (truck : Truck) :
    ((deadlines ≠ [] → deadlines.length ≤ 5 →
      (∃ p, p.Perm deadlines ∧
        (permSim ps dm am truck.speed p truck.time "hub" 0).isSome) →
      ∃ best d rest,
        optimize_with_permutations deadlines others deferred ps dm am truck =
          some (best ++ rest) ∧
        best.Perm deadlines ∧
        permSim ps dm am truck.speed best truck.time "hub" 0 = some d ∧
        ∀ q, q.Perm deadlines →
          ∀ dq, permSim ps dm am truck.speed q truck.time "hub" 0 = some dq →
            d ≤ dq) ∧
     ((∀ q, q.Perm deadlines →
        permSim ps dm am truck.speed q truck.time "hub" 0 = none) →
      optimize_with_permutations deadlines others deferred ps dm am truck =
        none)) := by
  constructor
  · rintro hne _hlen ⟨p, hperm, hsome⟩
    have hp : p ∈ permsLex deadlines := permsLexAux_complete p deadlines hperm
    obtain ⟨sp1, sp2⟩ := bestPerm_spec ps dm am truck.speed truck.time
      (permsLex deadlines) none (by simp)
    cases hbp : bestPerm ps dm am truck.speed truck.time
        (permsLex deadlines) none with
    | none =>
        obtain ⟨_, hall⟩ := sp1 hbp
        rw [hall p hp] at hsome
        cases hsome
    | some pr =>
        obtain ⟨s1, s2, s3, _⟩ := sp2 pr.1 pr.2 (by rw [hbp])
        have hmem : pr.1 ∈ permsLex deadlines := by
          rcases s2 with s2 | s2
          · cases s2
          · exact s2
        have hbperm : pr.1.Perm deadlines :=
          permsLexAux_sound deadlines.length deadlines pr.1 rfl hmem
        have hne' : pr.1 ≠ [] := by
          intro hnil
          apply hne
          have := hbperm.length_eq
          rw [hnil] at this
          exact List.length_eq_zero.mp this.symm
        have hempty : pr.1.isEmpty = false := by
          simpa [List.isEmpty_iff] using hne'
        refine ⟨pr.1, pr.2, nnFill ps dm am truck.time others.dedup.length
          others.dedup ((lookupD ps (pr.1.getLastD 0)).get_address
            (some truck.time)), ?_, hbperm, s1, ?_⟩
        · unfold optimize_with_permutations
          rw [hbp]
          dsimp only
          rw [hempty]
          rfl
        · intro q hqperm dq hdq
          exact s3 q (permsLexAux_complete q deadlines hqperm) dq hdq
  · intro hall
    have hall' : ∀ p ∈ permsLex deadlines,
        permSim ps dm am truck.speed p truck.time "hub" 0 = none :=
      fun p hp =>
        hall p (permsLexAux_sound deadlines.length deadlines p rfl hp)
    have hbp := bestPerm_unchanged ps dm am truck.speed truck.time
      (permsLex deadlines) none hall'
    unfold optimize_with_permutations
    rw [hbp]

/-- C5 witness: concrete singleton deadline set with feasible ordering. -/
theorem C5_permutation_search_optimal_witness :
    ∃ best d rest,
      optimize_with_permutations [1] [2] [] C5ps C4dm C4am C5truck =
        some (best ++ rest) ∧
      best.Perm [1] ∧
      permSim C5ps C4dm C4am C5truck.speed best C5truck.time "hub" 0 =
        some d ∧
      ∀ q, q.Perm [1] →
        ∀ dq, permSim C5ps C4dm C4am C5truck.speed q C5truck.time "hub" 0 =
          some dq → d ≤ dq :=
  (C5_permutation_search_optimal [1] [2] [] C5ps C4dm C4am C5truck).1 (by decide) (by decide)
    ⟨[1], List.Perm.refl _, by decide!⟩

theorem load_by_proximity_nil (t1 t2 : Truck) (ps : Packages)
    (dm : List (List ℚ)) (am : List (Addr × Nat)) (c : Choice) :
    load_by_proximity t1 t2 [] ps dm am c = (t1, t2, ps) := rfl

/-- C7 amended: a trial is deterministic except for the random cargo
representative drawn in calculate_center during proximity loading: whenever
no standard packages remain to be proximity-loaded, two runs on identical
inputs coincide for every pair of choice oracles.  With standard packages
present the outcome can differ (see C7_counterexample). -/
theorem C7_deterministic_without_standard (ps0 : Packages) (dm : List (List ℚ))
    (am : List (Addr × Nat)) (c1 c2 : Choice)
    (hstd : (preassign ps0 dm am).2.2.2 = []) :
    run_simulation ps0 dm am c1 = run_simulation ps0 dm am c2 := by
  simp only [run_simulation]
  rw [hstd]
  simp only [load_by_proximity_nil]

/-- C7 witness: the C6 scenario leaves no standard packages, so the first
and last choice oracles produce identical trials. -/
theorem C7_deterministic_without_standard_witness :
    run_simulation C6ps C6dm C6am chooseFirst =
      run_simulation C6ps C6dm C6am chooseLast :=
  C7_deterministic_without_standard C6ps C6dm C6am chooseFirst chooseLast (by decide!)

theorem foldl_inv {α β : Type} (P : β → Prop) (f : β → α → β)
    (hf : ∀ s a, P s → P (f s a)) :
    ∀ (l : List α) (s : β), P s → P (l.foldl f s) := by
  intro l
  induction l with
  | nil => intro s hs; exact hs
  | cons a l ih => intro s hs; exact ih (f s a) (hf s a hs)

theorem load_package_inv (t : Truck) (p : Package)
    (h : t.cargo.length ≤ t.capacity) :
    (t.load_package p).2.1.cargo.length ≤ (t.load_package p).2.1.capacity := by
  unfold Truck.load_package
  split
  · exact h
  next hlt =>
    simp only [List.length_append, List.length_cons, List.length_nil]
    omega

theorem loadPkg_inv (t : Truck) (ps : Packages) (pid : Nat)
    (h : t.cargo.length ≤ t.capacity) :
    (loadPkg t ps pid).1.cargo.length ≤ (loadPkg t ps pid).1.capacity := by
  unfold loadPkg
  split
  · exact h
  · exact load_package_inv t _ h

theorem load_group_inv (t : Truck) (group : List Nat) (ps : Packages)
    (h : t.cargo.length ≤ t.capacity) :
    (load_group_to_truck t group ps).1.cargo.length ≤
      (load_group_to_truck t group ps).1.capacity := by
  unfold load_group_to_truck
  split
  · refine foldl_inv
      (fun st : Truck × Packages => st.1.cargo.length ≤ st.1.capacity)
      _ ?_ group (t, ps) h
    intro s a hs
    dsimp only
    split
    · exact hs
    · exact loadPkg_inv s.1 s.2 a hs
  · exact h

theorem ts_step_inv (p2g : List (Nat × Nat)) :
    ∀ (s : Truck × Packages) (pid : Nat),
      s.1.cargo.length ≤ s.1.capacity →
      ((fun (st : Truck × Packages) pid =>
          match p2g.lookup pid with
          | some gid =>
              load_group_to_truck st.1 (groupMembersOf st.2 p2g gid) st.2
          | none =>
              if st.1.has_capacity then loadPkg st.1 st.2 pid else st) s
        pid).1.cargo.length ≤
      ((fun (st : Truck × Packages) pid =>
          match p2g.lookup pid with
          | some gid =>
              load_group_to_truck st.1 (groupMembersOf st.2 p2g gid) st.2
          | none =>
              if st.1.has_capacity then loadPkg st.1 st.2 pid else st) s
        pid).1.capacity := by
  intro s pid hs
  dsimp only
  split
  · exact load_group_inv s.1 _ s.2 hs
  · split
    · exact loadPkg_inv s.1 s.2 pid hs
    · exact hs

theorem load_truck_specific_inv (t1 t2 : Truck) (ts : List Nat × List Nat)
    (p2g : List (Nat × Nat)) (ps : Packages)
    (h1 : t1.cargo.length ≤ t1.capacity)
    (h2 : t2.cargo.length ≤ t2.capacity) :
    (load_truck_specific_packages t1 t2 ts p2g ps).1.cargo.length ≤
      (load_truck_specific_packages t1 t2 ts p2g ps).1.capacity ∧
    (load_truck_specific_packages t1 t2 ts p2g ps).2.1.cargo.length ≤
      (load_truck_specific_packages t1 t2 ts p2g ps).2.1.capacity := by
  unfold load_truck_specific_packages
  constructor
  · exact foldl_inv
      (fun st : Truck × Packages => st.1.cargo.length ≤ st.1.capacity)
      _ (ts_step_inv p2g) ts.1 (t1, ps) h1
  · exact foldl_inv
      (fun st : Truck × Packages => st.1.cargo.length ≤ st.1.capacity)
      _ (ts_step_inv p2g) ts.2 _ h2

theorem load_priority_inv (t : Truck) (priority : List Nat)
    (p2g : List (Nat × Nat)) (ps : Packages)
    (h : t.cargo.length ≤ t.capacity) :
    (load_priority_packages t priority p2g ps).1.cargo.length ≤
      (load_priority_packages t priority p2g ps).1.capacity := by
  unfold load_priority_packages
  refine foldl_inv
    (fun st : Truck × Packages => st.1.cargo.length ≤ st.1.capacity)
    _ ?_ priority (t, ps) h
  intro s a hs
  dsimp only
  split
  · exact hs
  · split
    · split
      · split
        · exact load_group_inv s.1 _ s.2 hs
        · exact loadPkg_inv s.1 s.2 a hs
      · exact loadPkg_inv s.1 s.2 a hs
    · exact hs

theorem load_deadline_inv (t : Truck) (deadline : List Nat)
    (p2g : List (Nat × Nat)) (ps : Packages)
    (h : t.cargo.length ≤ t.capacity) :
    (load_deadline_packages t deadline p2g ps).1.cargo.length ≤
      (load_deadline_packages t deadline p2g ps).1.capacity := by
  unfold load_deadline_packages
  refine foldl_inv
    (fun st : Truck × Packages => st.1.cargo.length ≤ st.1.capacity)
    _ ?_ _ (t, ps) h
  intro s a hs
  dsimp only
  split
  · exact hs
  · split
    · split
      · exact hs
      · exact load_group_inv s.1 _ s.2 hs
    · split
      · exact loadPkg_inv s.1 s.2 a hs
      · exact hs

theorem load_delayed_inv (t : Truck) (delayed : List Nat)
    (p2g : List (Nat × Nat)) (ps : Packages)
    (h : t.cargo.length ≤ t.capacity) :
    (load_delayed_packages t delayed p2g ps).1.cargo.length ≤
      (load_delayed_packages t delayed p2g ps).1.capacity := by
  unfold load_delayed_packages
  refine foldl_inv
    (fun st : Truck × Packages => st.1.cargo.length ≤ st.1.capacity)
    _ ?_ delayed (t, ps) h
  intro s a hs
  dsimp only
  split
  · exact hs
  · split
    · exact loadPkg_inv s.1 s.2 a hs
    · exact hs

theorem load_by_proximity_inv (t1 t2 : Truck) (std : List Nat)
    (ps : Packages) (dm : List (List ℚ)) (am : List (Addr × Nat))
    (c : Choice) (h1 : t1.cargo.length ≤ t1.capacity)
    (h2 : t2.cargo.length ≤ t2.capacity) :
    (load_by_proximity t1 t2 std ps dm am c).1.cargo.length ≤
      (load_by_proximity t1 t2 std ps dm am c).1.capacity ∧
    (load_by_proximity t1 t2 std ps dm am c).2.1.cargo.length ≤
      (load_by_proximity t1 t2 std ps dm am c).2.1.capacity := by
  unfold load_by_proximity
  split
  · exact ⟨h1, h2⟩
  · refine foldl_inv
      (fun st : Truck × Truck × Packages =>
        st.1.cargo.length ≤ st.1.capacity ∧
        st.2.1.cargo.length ≤ st.2.1.capacity)
      _ ?_ std (t1, t2, ps) ⟨h1, h2⟩
    intro s a hs
    dsimp only
    split
    · exact hs
    · split
      · exact hs
      · split
        · exact ⟨loadPkg_inv s.1 s.2.2 a hs.1, hs.2⟩
        · split
          · exact ⟨hs.1, loadPkg_inv s.2.1 s.2.2 a hs.2⟩
          · split
            · exact ⟨loadPkg_inv s.1 s.2.2 a hs.1, hs.2⟩
            · split
              · exact ⟨hs.1, loadPkg_inv s.2.1 s.2.2 a hs.2⟩
              · exact hs

theorem execDeliver_inv (dm : List (List ℚ)) (am : List (Addr × Nat))
    (t : Truck) (ps : Packages) (loc : Addr) (pid : Nat) (pkg : Package)
    (h : t.cargo.length ≤ t.capacity) :
    (execDeliver dm am t ps loc pid pkg).1.cargo.length ≤
      (execDeliver dm am t ps loc pid pkg).1.capacity := by
  unfold execDeliver Truck.deliverPkg
  dsimp only
  exact le_trans (List.Sublist.length_le (List.erase_sublist _ _)) h

theorem execute_route_go_inv (dm : List (List ℚ)) (am : List (Addr × Nat)) :
    ∀ (fuel : Nat) (t : Truck) (ps : Packages) (loc : Addr) (i : Nat),
      t.cargo.length ≤ t.capacity →
      (execute_route_go dm am fuel t ps loc i).1.cargo.length ≤
        (execute_route_go dm am fuel t ps loc i).1.capacity := by
  intro fuel
  induction fuel with
  | zero => intro t ps loc i h; exact h
  | succ n ih =>
      intro t ps loc i h
      simp only [execute_route_go]
      split
      · split
        · exact ih t ps loc (i + 1) h
        · split
          · split
            · split
              · exact ih _ ps loc i h
              · split
                · exact ih t _ loc (i + 1) h
                · exact ih _ _ loc i h
            · exact ih _ _ _ (i + 1) (execDeliver_inv dm am t ps loc _ _ h)
          · exact ih _ _ _ (i + 1) (execDeliver_inv dm am t ps loc _ _ h)
      · exact h

theorem execute_route_inv (t : Truck) (ps : Packages) (dm : List (List ℚ))
    (am : List (Addr × Nat)) (h : t.cargo.length ≤ t.capacity) :
    (execute_route t ps dm am).1.cargo.length ≤
      (execute_route t ps dm am).1.capacity := by
  unfold execute_route Truck.drive Truck.return_to_hub
  dsimp only
  exact execute_route_go_inv dm am 1000 t ps "hub" 0 h

theorem deliver_remaining_inv (t1 t2 : Truck) (ps : Packages)
    (dm : List (List ℚ)) (am : List (Addr × Nat))
    (h1 : t1.cargo.length ≤ t1.capacity)
    (h2 : t2.cargo.length ≤ t2.capacity) :
    (deliver_remaining_packages t1 t2 ps dm am).1.cargo.length ≤
      (deliver_remaining_packages t1 t2 ps dm am).1.capacity ∧
    (deliver_remaining_packages t1 t2 ps dm am).2.1.cargo.length ≤
      (deliver_remaining_packages t1 t2 ps dm am).2.1.capacity := by
  unfold deliver_remaining_packages
  dsimp only
  split
  · exact ⟨h1, h2⟩
  · split
    · split
      · refine ⟨foldl_inv
          (fun st : Truck × Packages => st.1.cargo.length ≤ st.1.capacity)
          _ ?_ _ _ h1, h2⟩
        intro s a hs
        dsimp only
        split
        · exact loadPkg_inv s.1 s.2 a hs
        · exact hs
      · refine ⟨execute_route_inv _ _ dm am (foldl_inv
          (fun st : Truck × Packages => st.1.cargo.length ≤ st.1.capacity)
          _ ?_ _ _ h1), h2⟩
        intro s a hs
        dsimp only
        split
        · exact loadPkg_inv s.1 s.2 a hs
        · exact hs
    · split
      · refine ⟨h1, foldl_inv
          (fun st : Truck × Packages => st.1.cargo.length ≤ st.1.capacity)
          _ ?_ _ _ h2⟩
        intro s a hs
        dsimp only
        split
        · exact loadPkg_inv s.1 s.2 a hs
        · exact hs
      · refine ⟨h1, execute_route_inv _ _ dm am (foldl_inv
          (fun st : Truck × Packages => st.1.cargo.length ≤ st.1.capacity)
          _ ?_ _ _ h2)⟩
        intro s a hs
        dsimp only
        split
        · exact loadPkg_inv s.1 s.2 a hs
        · exact hs

theorem preassign_inv (ps0 : Packages) (dm : List (List ℚ))
    (am : List (Addr × Nat)) :
    (preassign ps0 dm am).1.cargo.length ≤
      (preassign ps0 dm am).1.capacity ∧
    (preassign ps0 dm am).2.1.cargo.length ≤
      (preassign ps0 dm am).2.1.capacity := by
  unfold preassign
  dsimp only
  have h0 : (Truck.init 1 START_TIME).cargo.length ≤
      (Truck.init 1 START_TIME).capacity := by
    simp [Truck.init]
  have h0' : (Truck.init 2 (9 + 5/60)).cargo.length ≤
      (Truck.init 2 (9 + 5/60)).capacity := by
    simp [Truck.init]
  constructor
  · exact load_deadline_inv _ _ _ _ (load_priority_inv _ _ _ _
      (foldl_inv
        (fun st : Truck × Packages => st.1.cargo.length ≤ st.1.capacity)
        _ (fun s a hs => load_group_inv s.1 a s.2 hs) _ _
        (load_truck_specific_inv _ _ _ _ _ h0 h0').1))
  · exact load_delayed_inv _ _ _ _
      (load_truck_specific_inv _ _ _ _ _ h0 h0').2

theorem run_simulation_inv (ps0 : Packages) (dm : List (List ℚ))
    (am : List (Addr × Nat)) (c : Choice) :
    (run_simulation ps0 dm am c).2.1.cargo.length ≤
      (run_simulation ps0 dm am c).2.1.capacity ∧
    (run_simulation ps0 dm am c).2.2.cargo.length ≤
      (run_simulation ps0 dm am c).2.2.capacity := by
  obtain ⟨p1, p2⟩ := preassign_inv ps0 dm am
  obtain ⟨l1, l2⟩ := load_by_proximity_inv (preassign ps0 dm am).1
    (preassign ps0 dm am).2.1 (preassign ps0 dm am).2.2.2
    (preassign ps0 dm am).2.2.1 dm am c p1 p2
  exact deliver_remaining_inv _ _ _ dm am
    (execute_route_inv _ _ dm am l1) (execute_route_inv _ _ dm am l2)

/-- C8: a load attempt on a vehicle already at capacity returns False and
leaves the truck and the package (status and assigned vehicle included)
unchanged, a successful load keeps the cargo within capacity, and after a
whole simulated trial both trucks end within capacity (every cargo
extension in the pipeline goes through the guarded load_package, as the
invariant lemmas above trace). -/
theorem C8_capacity_invariant (t : Truck) (p : Package) (ps0 : Packages)
    (dm : List (List ℚ)) (am : List (Addr × Nat)) (c : Choice) :
    (t.cargo.length ≤ t.capacity →
      (t.load_package p).2.1.cargo.length ≤ t.capacity) ∧
    (t.capacity ≤ t.cargo.length →
      (t.load_package p).1 = false ∧ (t.load_package p).2.1 = t ∧
        (t.load_package p).2.2 = p) ∧
    ((run_simulation ps0 dm am c).2.1.cargo.length ≤
      (run_simulation ps0 dm am c).2.1.capacity ∧
     (run_simulation ps0 dm am c).2.2.cargo.length ≤
      (run_simulation ps0 dm am c).2.2.capacity) :=
  ⟨(load_package_contract t p).1, (load_package_contract t p).2,
   run_simulation_inv ps0 dm am c⟩

/-- C8 witness: a full capacity-1 truck fails to load, and the C7 scenario's
final truck 1 cargo is within capacity. -/
theorem C8_capacity_invariant_witness :
    (C8truck.load_package (demoPkg 9 "a")).1 = false ∧
    (C8truck.load_package (demoPkg 9 "a")).2.1 = C8truck ∧
    (run_simulation C7ps C7dm C7am chooseFirst).2.1.cargo.length ≤
      (run_simulation C7ps C7dm C7am chooseFirst).2.1.capacity :=
  ⟨((C8_capacity_invariant C8truck (demoPkg 9 "a") C7ps C7dm C7am
      chooseFirst).2.1 (by decide)).1,
   ((C8_capacity_invariant C8truck (demoPkg 9 "a") C7ps C7dm C7am
      chooseFirst).2.1 (by decide)).2.1,
   (C8_capacity_invariant C8truck (demoPkg 9 "a") C7ps C7dm C7am
      chooseFirst).2.2.1⟩


theorem update_lookup (pid : Nat) (p' : Package) :
    ∀ (ps : Packages) (q : Nat), (ps.update pid p').lookup q =
      match ps.lookup q with
      | none => none
      | some old => if q = pid then some p' else some old := by
  intro ps
  induction ps with
  | nil => intro q; rfl
  | cons kv tl ih =>
      intro q
      obtain ⟨k, v⟩ := kv
      simp only [Packages.update, Packages.lookup, List.map_cons]
      by_cases hk : k = pid
      · subst hk
        rw [if_pos rfl]
        by_cases hq : q = k
        · subst hq
          simp [List.lookup_cons]
        · have hbe : (q == k) = false := beq_eq_false_iff_ne.mpr hq
          simp only [List.lookup_cons, hbe]
          exact ih q
      · rw [if_neg hk]
        by_cases hq : q = k
        · subst hq
          simp [List.lookup_cons, hk]
        · have hbe : (q == k) = false := beq_eq_false_iff_ne.mpr hq
          simp only [List.lookup_cons, hbe]
          exact ih q

theorem update_lookup_isSome (ps : Packages) (pid q : Nat) (p' : Package) :
    ((ps.update pid p').lookup q).isSome = (ps.lookup q).isSome := by
  rw [update_lookup]
  cases ps.lookup q with
  | none => rfl
  | some old =>
      dsimp only
      split <;> rfl

theorem update_wf (ps : Packages) (pid : Nat) (p' : Package)
    (hwf : ∀ q pkg, ps.lookup q = some pkg → pkg.package_id = q)
    (hp : p'.package_id = pid) :
    ∀ q pkg, (ps.update pid p').lookup q = some pkg → pkg.package_id = q := by
  intro q pkg h
  rw [update_lookup] at h
  cases hq : ps.lookup q with
  | none => rw [hq] at h; cases h
  | some old =>
      rw [hq] at h
      dsimp only at h
      split at h
      next heq =>
        simp only [Option.some.injEq] at h
        subst h
        rw [hp]
        exact heq.symm
      next =>
        simp only [Option.some.injEq] at h
        rw [← h]
        exact hwf q old hq

theorem lookup_some_mem : ∀ (ps : Packages) (q : Nat) (pkg : Package),
    ps.lookup q = some pkg → (q, pkg) ∈ ps := by
  intro ps
  induction ps with
  | nil => intro q pkg h; cases h
  | cons kv tl ih =>
      intro q pkg h
      obtain ⟨k, v⟩ := kv
      rw [Packages.lookup, List.lookup_cons] at h
      by_cases hq : q = k
      · subst hq
        simp only [beq_self_eq_true] at h
        simp only [Option.some.injEq] at h
        subst h
        exact List.mem_cons_self _ _
      · have hbe : (q == k) = false := beq_eq_false_iff_ne.mpr hq
        rw [hbe] at h
        exact List.mem_cons_of_mem _ (ih q pkg h)

theorem loadPkg_cargo_mem (t : Truck) (ps : Packages) (pid : Nat) (x : Nat)
    (hx : x ∈ t.cargo) : x ∈ (loadPkg t ps pid).1.cargo := by
  unfold loadPkg Truck.load_package
  split
  · exact hx
  · split
    · exact hx
    · simp [hx]

theorem loadPkg_capacity (t : Truck) (ps : Packages) (pid : Nat) :
    (loadPkg t ps pid).1.capacity = t.capacity := by
  unfold loadPkg Truck.load_package
  split
  · rfl
  · split <;> rfl

theorem loadPkg_cargo_len (t : Truck) (ps : Packages) (pid : Nat) :
    (loadPkg t ps pid).1.cargo.length ≤ t.cargo.length + 1 := by
  unfold loadPkg Truck.load_package
  split
  · exact Nat.le_succ _
  · split
    · exact Nat.le_succ _
    · simp

theorem loadPkg_loads (t : Truck) (ps : Packages) (pid : Nat) (pkg : Package)
    (hfound : ps.lookup pid = some pkg)
    (hcap : t.cargo.length < t.capacity) :
    (loadPkg t ps pid).1.cargo = t.cargo ++ [pkg.package_id] := by
  unfold loadPkg
  rw [hfound]
  dsimp only
  unfold Truck.load_package
  rw [if_neg (by omega)]

theorem loadPkg_lookup_isSome (t : Truck) (ps : Packages) (pid q : Nat) :
    ((loadPkg t ps pid).2.lookup q).isSome = (ps.lookup q).isSome := by
  unfold loadPkg
  cases h : ps.lookup pid with
  | none => rfl
  | some p => exact update_lookup_isSome ps pid q _

theorem loadPkg_wf (t : Truck) (ps : Packages) (pid : Nat)
    (hwf : ∀ q pkg, ps.lookup q = some pkg → pkg.package_id = q) :
    ∀ q pkg, (loadPkg t ps pid).2.lookup q = some pkg →
      pkg.package_id = q := by
  unfold loadPkg
  cases h : ps.lookup pid with
  | none => exact hwf
  | some p =>
      dsimp only
      refine update_wf ps pid _ hwf ?_
      have hid : p.package_id = pid := hwf pid p h
      unfold Truck.load_package Package.pickup
      split
      · exact hid
      · exact hid

theorem load_group_fold_mem :
    ∀ (group : List Nat) (t : Truck) (ps : Packages),
      (∀ q pkg, ps.lookup q = some pkg → pkg.package_id = q) →
      (∀ pid ∈ group, (ps.lookup pid).isSome) →
      t.cargo.length + group.length ≤ t.capacity →
      ∀ pid ∈ group,
        pid ∈ (group.foldl
          (fun (st : Truck × Packages) pid =>
            if pid ∈ st.1.cargo then st else loadPkg st.1 st.2 pid)
          (t, ps)).1.cargo := by
  intro group
  induction group with
  | nil => intro t ps _ _ _ pid h; cases h
  | cons x rest ih =>
      intro t ps hwf hpres hfit pid hpid
      rw [List.foldl_cons]
      have hx : (ps.lookup x).isSome := hpres x (List.mem_cons_self x rest)
      obtain ⟨pkgx, hpkgx⟩ := Option.isSome_iff_exists.mp hx
      have hidx : pkgx.package_id = x := hwf x pkgx hpkgx
      by_cases hmem : x ∈ t.cargo
      · rw [if_pos hmem]
        rcases List.mem_cons.mp hpid with rfl | hrest
        · exact foldl_inv (fun st : Truck × Packages => pid ∈ st.1.cargo)
            _ (fun s a hs => by
              dsimp only
              split
              · exact hs
              · exact loadPkg_cargo_mem s.1 s.2 a pid hs) rest (t, ps) hmem
        · exact ih t ps hwf
            (fun q hq => hpres q (List.mem_cons_of_mem x hq))
            (by simp only [List.length_cons] at hfit; omega) pid hrest
      · rw [if_neg hmem]
        have hcap : t.cargo.length < t.capacity := by
          simp only [List.length_cons] at hfit
          omega
        have hload : (loadPkg t ps x).1.cargo = t.cargo ++ [x] := by
          rw [loadPkg_loads t ps x pkgx hpkgx hcap, hidx]
        have hxin : x ∈ (loadPkg t ps x).1.cargo := by
          rw [hload]
          simp
        rcases List.mem_cons.mp hpid with rfl | hrest
        · exact foldl_inv (fun st : Truck × Packages => pid ∈ st.1.cargo)
            _ (fun s a hs => by
              dsimp only
              split
              · exact hs
              · exact loadPkg_cargo_mem s.1 s.2 a pid hs) rest _ hxin
        · refine ih (loadPkg t ps x).1 (loadPkg t ps x).2
            (loadPkg_wf t ps x hwf)
            (fun q hq => by
              rw [loadPkg_lookup_isSome]
              exact hpres q (List.mem_cons_of_mem x hq)) ?_ pid hrest
          have h1 := loadPkg_cargo_len t ps x
          have h2 := loadPkg_capacity t ps x
          simp only [List.length_cons] at hfit
          omega

/-- C6 amended: the feasibility gate does not inspect groups (its group
check is a stub), so a feasible trial may split a resolved group (see
C6_counterexample); atomicity holds only at the single-loader level:
load_group_to_truck loads every member of a group whose ids are present
when the whole group fits within remaining capacity, and changes nothing
otherwise. -/
theorem C6_group_atomic_load (t : Truck) (group : List Nat)
    (ps : Packages) :
    ((∀ kv ∈ ps, (kv : Nat × Package).2.package_id = kv.1) →
     (∀ pid ∈ group, (ps.lookup pid).isSome) →
     t.cargo.length + group.length ≤ t.capacity →
     ∀ pid ∈ group, pid ∈ (load_group_to_truck t group ps).1.cargo) ∧
    (¬ t.cargo.length + group.length ≤ t.capacity →
     load_group_to_truck t group ps = (t, ps)) := by
  constructor
  · intro hwf hpres hfit pid hpid
    have hwf' : ∀ q pkg, ps.lookup q = some pkg → pkg.package_id = q :=
      fun q pkg h => hwf (q, pkg) (lookup_some_mem ps q pkg h)
    unfold load_group_to_truck
    rw [if_pos hfit]
    exact load_group_fold_mem group t ps hwf' hpres hfit pid hpid
  · intro hnofit
    unfold load_group_to_truck
    rw [if_neg hnofit]

/-- C6 witness: the pair group [1, 2] loads atomically onto an empty
truck. -/
theorem C6_group_atomic_load_witness :
    1 ∈ (load_group_to_truck (Truck.init 1 START_TIME) [1, 2] C2ps).1.cargo ∧
    2 ∈ (load_group_to_truck (Truck.init 1 START_TIME) [1, 2] C2ps).1.cargo :=
  ⟨(C6_group_atomic_load (Truck.init 1 START_TIME) [1, 2] C2ps).1
      (by decide) (by decide) (by decide) 1 (by decide),
   (C6_group_atomic_load (Truck.init 1 START_TIME) [1, 2] C2ps).1
      (by decide) (by decide) (by decide) 2 (by decide)⟩

/-- C1: on the encounter at which a pending-correction package's deferral
count exceeds the cap of 10, execute_route only advances the loop index past
the package (routing.py lines 48-51): no delivery is performed, contradicting
the spec's forced delivery at the stale address and the function's own log
message and docstring.  On a one-package route with a 20:00 correction, the
truck's clock and mileage never move, the package's deferral count reaches
11, and it ends the run undelivered and still en route. -/
theorem C1_force_delivery_skips :
    (execute_route C1truck [(1, C1pkg)] C1dm C1am).1.time = START_TIME ∧
    (execute_route C1truck [(1, C1pkg)] C1dm C1am).1.mileage = 0 ∧
    ((execute_route C1truck [(1, C1pkg)] C1dm C1am).2.lookup 1).map
      Package.delivery_time = some none ∧
    ((execute_route C1truck [(1, C1pkg)] C1dm C1am).2.lookup 1).map
      Package.defer_count = some 11 ∧
    ((execute_route C1truck [(1, C1pkg)] C1dm C1am).2.lookup 1).map
      Package.status = some Status.enRoute := by
  decide!

/-- C2 counterexample: on two disjoint must-travel-together pairs 1-2 and
3-4, resolve_package_groups returns only the last component [3, 4]; package
1 participates in a pairwise relation but appears in no returned group,
refuting the claim that every related package appears in exactly one
group. -/
theorem C2_counterexample :
    resolve_package_groups C2ps = [[3, 4]] ∧
    (∀ g ∈ resolve_package_groups C2ps, 1 ∉ g) ∧
    (lookupD C2ps 1).group_with = [2] := by
  decide!

/-- C3 counterexample: a package with a 9:00 deadline and no recorded
delivery instant passes constraints_satisfied, refuting the claim that a
trial with an undelivered deadline package is reported infeasible. -/
theorem C3_counterexample :
    constraints_satisfied [(5, C3pkg)] = true ∧
    C3pkg.deadline_time = some 9 ∧ C3pkg.delivery_time = none := by
  decide!

/-- C4 counterexample: on the route [1, 2, 3, 4] over C4dm, apply_2opt
accepts the reversal producing [1, 4, 3, 2]; package 4 carries a 10:00
deadline yet its projected completion time rises from 8 + 4/18 (= 74/9) to
8 + 11/18 (= 155/18) hours, refuting completion-time monotonicity.  The
index guard admits the reversal because package 4 moves to an earlier index
inside the reversed segment. -/
theorem C4_counterexample :
    apply_2opt [1, 2, 3, 4] C4ps C4dm C4am 8 = [1, 4, 3, 2] ∧
    (calculate_delivery_times [1, 2, 3, 4] C4ps C4dm C4am 8 18).lookup 4 =
      some (74/9) ∧
    (calculate_delivery_times [1, 4, 3, 2] C4ps C4dm C4am 8 18).lookup 4 =
      some (155/18) ∧
    (lookupD C4ps 4).deadline_time = some 10 ∧ ((74 : ℚ)/9) < 155/18 := by
  decide!

/-- C5 counterexample: the empty deadline subset has a time-feasible
permutation (the empty one, with total distance 0), yet
optimize_with_permutations returns none, because the source's falsy test
(if not best) conflates the empty best list with no-feasible-permutation. -/
theorem C5_counterexample :
    optimize_with_permutations [] [2] [] C5ps C4dm C4am C5truck = none ∧
    permSim C5ps C4dm C4am C5truck.speed [] C5truck.time "hub" 0 = some 0 ∧
    ([] : List Nat) ∈ permsLex [] := by
  decide!

/-- C6 counterexample: in the C6 scenario the trial passes
constraints_satisfied, yet the resolved group [1, 2] ends split across the
two vehicles (package 1 on truck 1 via the split-group branch of
load_priority_packages, package 2 on truck 2 via
deliver_remaining_packages), refuting group atomicity for feasible
trials. -/
theorem C6_counterexample :
    constraints_satisfied C6res.1 = true ∧
    resolve_package_groups C6ps = [[1, 2]] ∧
    (lookupD C6res.1 1).truck_assigned = some 1 ∧
    (lookupD C6res.1 2).truck_assigned = some 2 := by
  decide!

/-- C7 counterexample: two valid outcomes of the random.choice call inside
calculate_center (first versus last cargo element) steer the same input to
different assignments for package 4 (truck 1 versus truck 2), refuting the
claim that two runs of one trial on identical inputs produce identical
results; both runs pass the feasibility check. -/
theorem C7_counterexample :
    chooseFirst [1, 2] ∈ ([1, 2] : List Nat) ∧
    chooseLast [1, 2] ∈ ([1, 2] : List Nat) ∧
    (lookupD C7A.1 4).truck_assigned = some 1 ∧
    (lookupD C7B.1 4).truck_assigned = some 2 ∧
    constraints_satisfied C7A.1 = true ∧
    constraints_satisfied C7B.1 = true := by
  decide!

/-- C2 witness: the amended statement evaluated at the two-pair table. -/
theorem C2_last_component_only_witness :
    (resolve_package_groups C2ps).length ≤ 1 :=
  (C2_last_component_only C2ps).1

/-- C3 witness: the amended equivalence applied at the empty table. -/
theorem C3_constraints_satisfied_iff_witness :
    constraints_satisfied [] = true :=
  (C3_constraints_satisfied_iff []).mpr ⟨by simp, by simp⟩

end WGUPS
